import Mathlib

/-!
# Parallel heat simulation (heat_parallel.c)

A shallow embedding of the row-partitioned heat-diffusion program and the
properties of its partitioner, stencil update, collective merge, boundary
model and convergence check.

Modelling conventions.

* C `int` values are `Int`. Every integer the program computes stays far
  below `2^31` (see `start_row_no_overflow`), so no wrap-around is modelled.
* `float` cells are rationals: arithmetic is exact.
* A two-dimensional array `float g[SIZE][SIZE]` is a function of a row and a
  column index, both `Int`. The program only ever uses column indices in
  `[0, SIZE)`; row indices outside `[0, SIZE)` denote the storage just before
  and just after the array and are kept as ordinary cells of the index space.
  Whether an index stays inside the array is a separate property,
  `InArray`.
* A `for` loop is `forRange`, which runs its body for each index in order;
  a loop with `break` is `forRangeBreak`.
* The workers of one run are a family of states indexed by rank.
* A process leaves the main loop on its own stability check. The collective
  calls need every process, so the processes that remain block once one has
  left (`main_loop`).
-/

namespace HeatParallel

/-! ## Constants (lines 23-32) -/

/-- Grid dimension, `#define SIZE 300`. -/
def SIZE : Int := 300

/-- Number of heaters, `#define HEATER_COUNT 2`. -/
def HEATER_COUNT : Int := 2

/-- Side length of a heater, `#define HEATER_SIZE 50`. -/
def HEATER_SIZE : Int := 50

/-- Declared iteration bound, `#define MAX_ITERATIONS 10000`. The program
text never refers to it again. -/
def MAX_ITERATIONS : Nat := 10000

/-- Wall temperature, `#define COLD 0.0`. -/
def COLD : ℚ := 0

/-- Heater temperature, `#define HOT 1.0`. -/
def HOT : ℚ := 1

/-- Initial room temperature, `#define AMBIENT 0.5`. -/
def AMBIENT : ℚ := 1 / 2

/-- Diffusion coefficient, `#define K 0.25`. -/
def K : ℚ := 1 / 4

/-! ## Data model (lines 34-39) -/

/-- A two-dimensional array of cells, addressed by row and column. -/
abbrev Grid := Int → Int → ℚ

/-- The assignment `g[i][j] = v`. -/
def Grid.write (g : Grid) (i j : Int) (v : ℚ) : Grid :=
  fun a b => if a = i ∧ b = j then v else g a b

/-- The index pair lies inside a `SIZE x SIZE` array. -/
def InArray (i j : Int) : Prop := 0 ≤ i ∧ i < SIZE ∧ 0 ≤ j ∧ j < SIZE

instance (i j : Int) : Decidable (InArray i j) :=
  inferInstanceAs (Decidable (0 ≤ i ∧ i < SIZE ∧ 0 ≤ j ∧ j < SIZE))

/-- The global variables of one process: `grid`, `new_grid` and the two
heater coordinate arrays. -/
@[ext]
structure State where
  grid : Grid
  new_grid : Grid
  heater_location_x : Int → Int
  heater_location_y : Int → Int

/-! ## Loops -/

/-- Runs `body i`, `body (i+1)`, ... for `n` consecutive indices. -/
def forLoop {σ : Type} (body : Int → σ → σ) : Nat → Int → σ → σ
  | 0, _, s => s
  | n + 1, i, s => forLoop body n (i + 1) (body i s)

/-- The loop `for (int i = lo; i < hi; i++) body`. -/
def forRange {σ : Type} (lo hi : Int) (body : Int → σ → σ) (s : σ) : σ :=
  forLoop body (hi - lo).toNat lo s

/-- Runs at most `n` iterations; an iteration returns the new state and
whether it executed `break`. -/
def forLoopBreak {σ : Type} (body : Int → σ → σ × Bool) : Nat → Int → σ → σ
  | 0, _, s => s
  | n + 1, i, s =>
    if (body i s).2 then (body i s).1 else forLoopBreak body n (i + 1) (body i s).1

/-- The loop `for (int i = lo; i < hi; i++) body` whose body may `break`. -/
def forRangeBreak {σ : Type} (lo hi : Int) (body : Int → σ → σ × Bool) (s : σ) : σ :=
  forLoopBreak body (hi - lo).toNat lo s

/-! ## Partitioner (lines 153-166) -/

/-- Rows per process, `SIZE / size` with C integer division; the grid
dimension is a parameter `n`. -/
def chunk_size (n size : Int) : Int := Int.tdiv n size

/-- Left-over rows, `SIZE % size` with the C remainder. -/
def remainder (n size : Int) : Int := Int.tmod n size

/-- First row of a rank (lines 160-166). -/
def start_row (n size rank : Int) : Int :=
  if rank < remainder n size then rank * (chunk_size n size + 1)
  else rank * chunk_size n size + remainder n size

/-- One past the last row of a rank (lines 160-166). -/
def end_row (n size rank : Int) : Int :=
  if rank < remainder n size then start_row n size rank + chunk_size n size + 1
  else start_row n size rank + chunk_size n size

/-! ## Stencil update (lines 190-195) -/

/-- The right-hand side of line 193, read from the array `g`. -/
def stencil (g : Grid) (i j : Int) : ℚ :=
  g i j + K * (g (i + 1) j + g (i - 1) j + g i (j + 1) + g i (j - 1) - 4 * g i j)

/-- Line 193: one assignment to `new_grid[i][j]`. -/
def update_cell (i j : Int) (s : State) : State :=
  { s with new_grid := s.new_grid.write i j (stencil s.grid i j) }

/-- Lines 191-195: the update loop of a process owning `[start_row, end_row)`. -/
def update_grid (start_row end_row : Int) (s : State) : State :=
  forRange (start_row - 1) end_row
    (fun i s1 => forRange 1 (SIZE - 1) (fun j s2 => update_cell i j s2) s1) s

/-! ## Boundary model (lines 41-88) -/

/-- Lines 43-51: the eight wall assignments of one iteration. -/
def walls_body (i : Int) (s : State) : State :=
  { s with
    grid := (((s.grid.write i 0 COLD).write 0 i COLD).write i (SIZE - 1) COLD).write
      (SIZE - 1) i COLD
    new_grid := (((s.new_grid.write i 0 COLD).write 0 i COLD).write i (SIZE - 1) COLD).write
      (SIZE - 1) i COLD }

/-- Lines 41-53. -/
def initialize_walls (s : State) : State :=
  forRange 0 SIZE walls_body s

/-- Lines 55-61. -/
def initialize_room (s : State) : State :=
  forRange 1 (SIZE - 1)
    (fun i s1 => forRange 1 (SIZE - 1)
      (fun j s2 => { s2 with grid := s2.grid.write i j AMBIENT }) s1) s

/-- Lines 71-75: the footprint of heater `i` is set to `HOT` in `grid`. -/
def heat_grid (i : Int) (s : State) : State :=
  forRange 0 HEATER_SIZE
    (fun x s1 => forRange 0 HEATER_SIZE
      (fun y s2 => { s2 with
        grid := s2.grid.write (s2.heater_location_x i + x) (s2.heater_location_y i + y) HOT })
      s1) s

/-- Lines 67-68: the coordinate computed from one value `r` of `rand()`,
`(r % (SIZE - (HEATER_SIZE + 1))) + 1` with the C remainder. -/
def heater_coordinate (r : Int) : Int :=
  Int.tmod r (SIZE - (HEATER_SIZE + 1)) + 1

/-- Lines 67-75: heater `i` is placed from two values of `rand()` and its
footprint is heated. -/
def drop_heater (rand : Nat → Int) (i : Int) (s0 : State) : State :=
  let s1 : State := { s0 with
    heater_location_x := fun k =>
      if k = i then heater_coordinate (rand (2 * i.toNat)) else s0.heater_location_x k }
  let s2 : State := { s1 with
    heater_location_y := fun k =>
      if k = i then heater_coordinate (rand (2 * i.toNat + 1)) else s1.heater_location_y k }
  heat_grid i s2

/-- Lines 63-77. The values returned by the successive calls of `rand()` are
the sequence `rand`; heater `i` consumes elements `2*i` and `2*i+1`. -/
def drop_heaters (rand : Nat → Int) (s : State) : State :=
  forRange 0 HEATER_COUNT (drop_heater rand) s

/-- Lines 82-86: the footprint of heater `i` is set to `HOT` in `new_grid`. -/
def heat_new_grid (i : Int) (s : State) : State :=
  forRange 0 HEATER_SIZE
    (fun x s1 => forRange 0 HEATER_SIZE
      (fun y s2 => { s2 with
        new_grid :=
          s2.new_grid.write (s2.heater_location_x i + x) (s2.heater_location_y i + y) HOT })
      s1) s

/-- Lines 79-88. -/
def update_heaters (s : State) : State :=
  forRange 0 HEATER_COUNT heat_new_grid s

/-- Lines 135-141. -/
def copy_room (s : State) : State :=
  forRange 0 SIZE
    (fun i s1 => forRange 0 SIZE
      (fun j s2 => { s2 with grid := s2.grid.write i j (s2.new_grid i j) }) s1) s

/-! ## Collective merge (lines 197-198) -/

/-- Element `k` of the storage of a two-dimensional array, counted from
`&g[0][0]` in row-major order. -/
def flat (g : Grid) (k : Int) : ℚ := g (k / SIZE) (k % SIZE)

/-- The block copy performed by `MPI_Allgather(sendbuf, count, _, recvbuf,
count, _, _)` on one receiver: element `m` of the block sent by rank `p`
lands at offset `p * count + m` of the receive buffer, for every rank
`0 <= p < size`; the rest of the receive buffer is untouched.
`sendbuf p m` is element `m` of the send buffer of rank `p`. -/
def MPI_Allgather (size count : Int) (sendbuf : Int → Int → ℚ) (recvbuf : Int → ℚ) :
    Int → ℚ :=
  fun k => if 0 ≤ k ∧ k < size * count then sendbuf (k / count) (k % count) else recvbuf k

/-- Line 198 on every process `r`: the send buffer of rank `p` starts at
`&new_grid[start_row][0]` of rank `p`, the count is `chunk_size * SIZE`, the
receive buffer starts at `&new_grid[0][0]` of process `r`. The blocks sent are
the contents of the arrays before the call. Cell `(i, j)` with a column in
`[0, SIZE)` is element `i * SIZE + j` of the storage. -/
def allgather_new_grid (size : Int) (w : Int → State) : Int → State :=
  fun r =>
    { w r with
      new_grid := fun i j =>
        if 0 ≤ j ∧ j < SIZE then
          MPI_Allgather size (chunk_size SIZE size * SIZE)
            (fun p m => flat (w p).new_grid (start_row SIZE size p * SIZE + m))
            (flat (w r).new_grid) (i * SIZE + j)
        else (w r).new_grid i j }

/-! ## Convergence check (lines 207-218) -/

/-- Lines 210-216: the scan of row `i`, leaving the loop at the first cell
whose change exceeds the threshold. The state is the variable `isStable`. -/
def stability_row (threshold : ℚ) (s : State) (i : Int) (isStable : Int) : Int :=
  forRangeBreak 0 SIZE
    (fun j st => if |s.grid i j - s.new_grid i j| > threshold then (0, true) else (st, false))
    isStable

/-- Lines 208-218: the value of `isStable` after the scan. -/
def stability_check (threshold : ℚ) (s : State) : Int :=
  forRangeBreak 0 SIZE
    (fun i st => (stability_row threshold s i st, decide (stability_row threshold s i st = 0)))
    1

/-! ## Main loop (lines 178-222) -/

/-- Lines 190-195 on every process. -/
def compute_phase (size : Int) (w : Int → State) : Int → State :=
  fun r => update_grid (start_row SIZE size r) (end_row SIZE size r) (w r)

/-- Lines 190-203 on every process: update, merge, walls, heaters. -/
def step_phase (size : Int) (w : Int → State) : Int → State :=
  fun r => update_heaters (initialize_walls (allgather_new_grid size (compute_phase size w) r))

/-- Lines 190-220 on every process: the states with which the processes
enter the next iteration. -/
def next_iteration (size : Int) (w : Int → State) : Int → State :=
  fun r => copy_room (step_phase size w r)

/-- Whether some process of the run, rank `0` to `size - 1`, finds
`isStable` set by the check of lines 207-218 and so leaves the loop. -/
def some_rank_stable (size : Int) (threshold : ℚ) (w : Int → State) : Bool :=
  (List.range size.toNat).any (fun p => decide (stability_check threshold (w (p : Int)) ≠ 0))

/-- The loop `while (!isStable)` as process `rank` runs it, with `fuel`
bounding the number of iterations followed. A process that finds `isStable`
set leaves the loop with the current value of `step`. A process that does not
goes on to the next iteration only when no process has left: the collective
calls of lines 183-205 need every process, so once some process has left the
loop the remaining ones block in `MPI_Barrier` and never leave it. The result
is the value of `step` when the process leaves the loop, and `none` when it
has not left it within `fuel` iterations, blocked or still running. -/
def main_loop (size rank : Int) (threshold : ℚ) : Nat → (Int → State) → Int → Option Int
  | 0, _, _ => none
  | fuel + 1, w, step =>
    if stability_check threshold (step_phase size w rank) = 0 then
      if some_rank_stable size threshold (step_phase size w) then none
      else main_loop size rank threshold fuel (next_iteration size w) (step + 1)
    else some (step + 1)

/-- The zero-initialised globals of a process at program start. -/
def zero_state : State :=
  { grid := fun _ _ => 0, new_grid := fun _ _ => 0,
    heater_location_x := fun _ => 0, heater_location_y := fun _ => 0 }

/-- Lines 168-171: the state of a process when it enters the main loop. -/
def initial_state (rand : Nat → Int) : State :=
  drop_heaters rand (initialize_room (initialize_walls zero_state))

/-- The processes of a run as they enter the main loop, every process having
drawn the same values from `rand()`. -/
def initial_workers (rand : Nat → Int) : Int → State :=
  fun _ => initial_state rand

/-- Every cell of the array holds 0 and the storage just before the array,
which line 193 reads as row `-1`, holds 8. -/
def cold_array_state : State :=
  { zero_state with grid := fun a _ => if a = -1 then 8 else 0 }

/-- Every cell of `grid` and `new_grid` of a process lies in `[0, 1]`. -/
def UnitRange (s : State) : Prop :=
  ∀ a b, (0 ≤ s.grid a b ∧ s.grid a b ≤ 1) ∧ (0 ≤ s.new_grid a b ∧ s.new_grid a b ≤ 1)

theorem forLoop_invariant {σ : Type} (body : Int → σ → σ) (P : Int → σ → Prop) :
    ∀ (n : Nat) (lo : Int) (s : σ), P lo s →
      (∀ i t, lo ≤ i → i < lo + n → P i t → P (i + 1) (body i t)) →
      P (lo + n) (forLoop body n lo s) := by
  intro n
  induction n with
  | zero => intro lo s h _; simpa [forLoop] using h
  | succ n ih =>
    intro lo s h step
    have h1 : P (lo + 1) (body lo s) := step lo s le_rfl (by push_cast; omega) h
    have h2 := ih (lo + 1) (body lo s) h1
      (fun i t hi1 hi2 hP => step i t (by omega) (by push_cast; omega) hP)
    have e : lo + ((n + 1 : Nat) : Int) = lo + 1 + (n : Int) := by push_cast; ring
    rw [e]
    simpa [forLoop] using h2

theorem forRange_invariant {σ : Type} (lo hi : Int) (body : Int → σ → σ)
    (P : Int → σ → Prop) (s : σ) (hle : lo ≤ hi) (h0 : P lo s)
    (step : ∀ i t, lo ≤ i → i < hi → P i t → P (i + 1) (body i t)) :
    P hi (forRange lo hi body s) := by
  have e : lo + (((hi - lo).toNat : Nat) : Int) = hi := by
    rw [Int.toNat_of_nonneg (by omega)]; ring
  have h := forLoop_invariant body P (hi - lo).toNat lo s h0
    (fun i t h1 h2 hP => step i t h1 (by omega) hP)
  rw [e] at h
  exact h

theorem forRange_empty {σ : Type} (lo hi : Int) (body : Int → σ → σ) (s : σ)
    (h : hi ≤ lo) : forRange lo hi body s = s := by
  have e : (hi - lo).toNat = 0 := by
    apply Int.toNat_eq_zero.mpr; omega
  simp [forRange, e, forLoop]

theorem forRange_eq_of_step {σ : Type} (lo hi : Int) (body : Int → σ → σ) (f : Int → σ)
    (s : σ) (hle : lo ≤ hi) (h0 : f lo = s)
    (step : ∀ i, lo ≤ i → i < hi → body i (f i) = f (i + 1)) :
    forRange lo hi body s = f hi := by
  apply forRange_invariant lo hi body (fun i t => t = f i) s hle h0.symm
  intro i t h1 h2 ht
  rw [ht]
  exact step i h1 h2

/-! ## Writing cells -/

theorem region_union (V old : Grid) (c1 c c2 : Int → Int → Prop)
    [∀ a b, Decidable (c1 a b)] [∀ a b, Decidable (c a b)] [∀ a b, Decidable (c2 a b)]
    (h : ∀ a b, c2 a b ↔ c1 a b ∨ c a b) :
    (fun a b => if c1 a b then V a b else if c a b then V a b else old a b) =
      fun a b => if c2 a b then V a b else old a b := by
  funext a b
  by_cases h1 : c1 a b
  · rw [if_pos h1, if_pos ((h a b).mpr (Or.inl h1))]
  · rw [if_neg h1]
    exact if_congr (by rw [h a b]; simp [h1]) rfl rfl

theorem write_region (V old : Grid) (c c2 : Int → Int → Prop)
    [∀ a b, Decidable (c a b)] [∀ a b, Decidable (c2 a b)] (i j : Int)
    (h : ∀ a b, c2 a b ↔ (a = i ∧ b = j) ∨ c a b) :
    Grid.write (fun a b => if c a b then V a b else old a b) i j (V i j) =
      fun a b => if c2 a b then V a b else old a b := by
  rw [← region_union V old (fun a b => a = i ∧ b = j) c c2 h]
  funext a b
  unfold Grid.write
  by_cases h1 : a = i ∧ b = j
  · rw [if_pos h1, if_pos h1, h1.1, h1.2]
  · rw [if_neg h1, if_neg h1]

theorem region_empty (V old : Grid) (c : Int → Int → Prop) [∀ a b, Decidable (c a b)]
    (h : ∀ a b, ¬ c a b) : (fun a b => if c a b then V a b else old a b) = old := by
  funext a b
  rw [if_neg (h a b)]

/-! ## Stencil update -/

theorem update_row_eq (i : Int) (s : State) :
    forRange 1 (SIZE - 1) (fun j s2 => update_cell i j s2) s =
      { s with new_grid := fun a b =>
          if a = i ∧ 1 ≤ b ∧ b < SIZE - 1 then stencil s.grid a b else s.new_grid a b } := by
  apply forRange_eq_of_step 1 (SIZE - 1) _
    (fun j => ({ s with new_grid := fun a b =>
      if a = i ∧ 1 ≤ b ∧ b < j then stencil s.grid a b else s.new_grid a b } : State))
  · simp [SIZE]
  · apply State.ext <;> try rfl
    exact region_empty _ _ _ (by intro a b; omega)
  · intro j hj1 hj2
    apply State.ext <;> try rfl
    exact write_region (stencil s.grid) s.new_grid (fun a b => a = i ∧ 1 ≤ b ∧ b < j)
      (fun a b => a = i ∧ 1 ≤ b ∧ b < j + 1) i j (by intro a b; omega)

theorem update_grid_eq (sr er : Int) (s : State) :
    update_grid sr er s =
      { s with new_grid := fun a b =>
          if sr - 1 ≤ a ∧ a < er ∧ 1 ≤ b ∧ b < SIZE - 1 then stencil s.grid a b
          else s.new_grid a b } := by
  unfold update_grid
  by_cases hle : sr - 1 ≤ er
  · apply forRange_eq_of_step (sr - 1) er _
      (fun i =>
        ({ s with new_grid := fun a b =>
            if sr - 1 ≤ a ∧ a < i ∧ 1 ≤ b ∧ b < SIZE - 1 then stencil s.grid a b
            else s.new_grid a b } : State)) s hle
    · apply State.ext <;> try rfl
      exact region_empty _ _ _ (by intro a b; omega)
    · intro i hi1 hi2
      rw [update_row_eq]
      apply State.ext <;> try rfl
      exact region_union (stencil s.grid) s.new_grid (fun a b => a = i ∧ 1 ≤ b ∧ b < SIZE - 1)
        (fun a b => sr - 1 ≤ a ∧ a < i ∧ 1 ≤ b ∧ b < SIZE - 1)
        (fun a b => sr - 1 ≤ a ∧ a < i + 1 ∧ 1 ≤ b ∧ b < SIZE - 1) (by intro a b; omega)
  · rw [forRange_empty _ _ _ _ (by omega)]
    apply State.ext <;> try rfl
    exact (region_empty _ _ _ (by intro a b; omega)).symm

/-! ## Partitioner -/

theorem chunk_size_eq (n size : Int) (hn : 0 ≤ n) (hs : 1 ≤ size) :
    chunk_size n size = n / size :=
  Int.tdiv_eq_ediv hn (by omega)

theorem remainder_eq (n size : Int) (hn : 0 ≤ n) (hs : 1 ≤ size) :
    remainder n size = n % size :=
  Int.tmod_eq_emod hn (by omega)

theorem chunk_size_nonneg (n size : Int) (hn : 0 ≤ n) (hs : 1 ≤ size) :
    0 ≤ chunk_size n size := by
  rw [chunk_size_eq n size hn hs]
  exact Int.ediv_nonneg hn (by omega)

theorem remainder_bounds (n size : Int) (hn : 0 ≤ n) (hs : 1 ≤ size) :
    0 ≤ remainder n size ∧ remainder n size < size := by
  rw [remainder_eq n size hn hs]
  exact ⟨Int.emod_nonneg _ (by omega), Int.emod_lt_of_pos _ (by omega)⟩

theorem chunk_remainder_sum (n size : Int) (hn : 0 ≤ n) (hs : 1 ≤ size) :
    size * chunk_size n size + remainder n size = n := by
  rw [chunk_size_eq n size hn hs, remainder_eq n size hn hs]
  exact Int.ediv_add_emod n size

/-- Closed form of `start_row`: `rank * chunk_size + min rank remainder`. -/
theorem start_row_closed (n size rank : Int) :
    start_row n size rank = rank * chunk_size n size + min rank (remainder n size) := by
  unfold start_row
  split_ifs with h
  · rw [min_eq_left (le_of_lt h)]; ring
  · rw [min_eq_right (not_lt.mp h)]

theorem end_row_eq_start_row_succ (n size rank : Int) :
    end_row n size rank = start_row n size (rank + 1) := by
  unfold end_row
  rw [start_row_closed n size (rank + 1), start_row_closed n size rank]
  have e : (rank + 1) * chunk_size n size = rank * chunk_size n size + chunk_size n size := by
    ring
  rw [e]
  split_ifs with h
  · rw [min_eq_left (le_of_lt h), min_eq_left (by omega)]; ring
  · rw [min_eq_right (not_lt.mp h), min_eq_right (by omega)]; ring

theorem start_row_zero (n size : Int) (hn : 0 ≤ n) (hs : 1 ≤ size) :
    start_row n size 0 = 0 := by
  rw [start_row_closed]
  have h := (remainder_bounds n size hn hs).1
  rw [min_eq_left h]; ring

theorem start_row_size (n size : Int) (hn : 0 ≤ n) (hs : 1 ≤ size) :
    start_row n size size = n := by
  rw [start_row_closed]
  have h := (remainder_bounds n size hn hs).2
  rw [min_eq_right (le_of_lt h)]
  exact chunk_remainder_sum n size hn hs

theorem start_row_mono (n size : Int) (hn : 0 ≤ n) (hs : 1 ≤ size) (r1 r2 : Int)
    (h : r1 ≤ r2) : start_row n size r1 ≤ start_row n size r2 := by
  rw [start_row_closed, start_row_closed]
  have h1 : r1 * chunk_size n size ≤ r2 * chunk_size n size :=
    mul_le_mul_of_nonneg_right h (chunk_size_nonneg n size hn hs)
  have h2 : min r1 (remainder n size) ≤ min r2 (remainder n size) :=
    min_le_min_right _ h
  omega

/-- Every row below `start_row k` lies in the range of a rank below `k`. -/
theorem row_owner_below (n size : Int) (hn : 0 ≤ n) (hs : 1 ≤ size) (k : Nat) :
    ∀ i : Int, 0 ≤ i → i < start_row n size k →
      ∃ rank : Int, 0 ≤ rank ∧ rank < k ∧
        start_row n size rank ≤ i ∧ i < end_row n size rank := by
  induction k with
  | zero =>
    intro i h0 h1
    simp only [Nat.cast_zero] at h1
    rw [start_row_zero n size hn hs] at h1
    omega
  | succ k ih =>
    intro i h0 h1
    by_cases h2 : i < start_row n size k
    · obtain ⟨r, hr0, hr1, hr2, hr3⟩ := ih i h0 h2
      exact ⟨r, hr0, by push_cast; omega, hr2, hr3⟩
    · refine ⟨k, by omega, by push_cast; omega, by omega, ?_⟩
      rw [end_row_eq_start_row_succ]
      push_cast at h1
      exact h1

/-- Every rank's range lies inside `[0, n)`: with `n = SIZE = 300` the values
of `start_row` and `end_row` are far below `2^31`. -/
theorem start_row_no_overflow (n size rank : Int) (hn : 0 ≤ n) (hs : 1 ≤ size)
    (h0 : 0 ≤ rank) (h1 : rank < size) :
    0 ≤ start_row n size rank ∧ start_row n size rank ≤ end_row n size rank ∧
      end_row n size rank ≤ n := by
  rw [end_row_eq_start_row_succ]
  have a := start_row_mono n size hn hs 0 rank h0
  have b := start_row_mono n size hn hs rank (rank + 1) (by omega)
  have c := start_row_mono n size hn hs (rank + 1) size (by omega)
  rw [start_row_zero n size hn hs] at a
  rw [start_row_size n size hn hs] at c
  exact ⟨a, b, c⟩

/-! ## Boundary model -/

theorem walls_write (g : Grid) (i : Int) (hi0 : 0 ≤ i) (hi1 : i < SIZE) :
    (((Grid.write (fun a b =>
        if ((0 ≤ a ∧ a < i ∧ (b = 0 ∨ b = SIZE - 1)) ∨ (0 ≤ b ∧ b < i ∧ (a = 0 ∨ a = SIZE - 1)))
        then COLD else g a b) i 0 COLD).write 0 i COLD).write i (SIZE - 1) COLD).write
        (SIZE - 1) i COLD =
      fun a b =>
        if ((0 ≤ a ∧ a < i + 1 ∧ (b = 0 ∨ b = SIZE - 1)) ∨
          (0 ≤ b ∧ b < i + 1 ∧ (a = 0 ∨ a = SIZE - 1)))
        then COLD else g a b := by
  funext a b
  simp only [Grid.write, SIZE] at *
  split_ifs <;> first | rfl | (exfalso; omega)

theorem initialize_walls_eq (s : State) :
    initialize_walls s =
      { s with
        grid := fun a b =>
          if InArray a b ∧ (a = 0 ∨ a = SIZE - 1 ∨ b = 0 ∨ b = SIZE - 1) then COLD
          else s.grid a b
        new_grid := fun a b =>
          if InArray a b ∧ (a = 0 ∨ a = SIZE - 1 ∨ b = 0 ∨ b = SIZE - 1) then COLD
          else s.new_grid a b } := by
  have h := forRange_eq_of_step 0 SIZE walls_body
    (fun i =>
      ({ s with
          grid := fun a b =>
            if ((0 ≤ a ∧ a < i ∧ (b = 0 ∨ b = SIZE - 1)) ∨
              (0 ≤ b ∧ b < i ∧ (a = 0 ∨ a = SIZE - 1)))
            then COLD else s.grid a b
          new_grid := fun a b =>
            if ((0 ≤ a ∧ a < i ∧ (b = 0 ∨ b = SIZE - 1)) ∨
              (0 ≤ b ∧ b < i ∧ (a = 0 ∨ a = SIZE - 1)))
            then COLD else s.new_grid a b } : State)) s (by simp [SIZE])
    (by
      apply State.ext <;> try rfl
      · exact region_empty _ _ _ (by intro a b; omega)
      · exact region_empty _ _ _ (by intro a b; omega))
    (by
      intro i h0 h1
      apply State.ext <;> try rfl
      · exact walls_write s.grid i h0 h1
      · exact walls_write s.new_grid i h0 h1)
  unfold initialize_walls
  rw [h]
  apply State.ext <;> try rfl
  · funext a b
    exact if_congr (by unfold InArray; simp only [SIZE]; omega) rfl rfl
  · funext a b
    exact if_congr (by unfold InArray; simp only [SIZE]; omega) rfl rfl

theorem copy_room_eq (s : State) :
    copy_room s =
      { s with grid := fun a b => if InArray a b then s.new_grid a b else s.grid a b } := by
  have inner : ∀ (i : Int) (t : State),
      forRange 0 SIZE (fun j s2 => { s2 with grid := s2.grid.write i j (s2.new_grid i j) }) t =
        { t with grid := fun a b =>
            if a = i ∧ 0 ≤ b ∧ b < SIZE then t.new_grid a b else t.grid a b } := by
    intro i t
    apply forRange_eq_of_step 0 SIZE _
      (fun j =>
        ({ t with grid := fun a b =>
            if a = i ∧ 0 ≤ b ∧ b < j then t.new_grid a b else t.grid a b } : State))
    · simp [SIZE]
    · apply State.ext <;> try rfl
      exact region_empty _ _ _ (by intro a b; omega)
    · intro j hj1 hj2
      apply State.ext <;> try rfl
      exact write_region t.new_grid t.grid (fun a b => a = i ∧ 0 ≤ b ∧ b < j)
        (fun a b => a = i ∧ 0 ≤ b ∧ b < j + 1) i j (by intro a b; omega)
  unfold copy_room
  apply forRange_eq_of_step 0 SIZE _
    (fun i =>
      ({ s with grid := fun a b =>
          if 0 ≤ a ∧ a < i ∧ 0 ≤ b ∧ b < SIZE then s.new_grid a b else s.grid a b } : State))
      s (by simp [SIZE])
  · apply State.ext <;> try rfl
    exact region_empty _ _ _ (by intro a b; omega)
  · intro i hi1 hi2
    rw [inner]
    apply State.ext <;> try rfl
    exact region_union s.new_grid s.grid (fun a b => a = i ∧ 0 ≤ b ∧ b < SIZE)
      (fun a b => 0 ≤ a ∧ a < i ∧ 0 ≤ b ∧ b < SIZE)
      (fun a b => 0 ≤ a ∧ a < i + 1 ∧ 0 ≤ b ∧ b < SIZE) (by intro a b; omega)

theorem initialize_room_eq (s : State) :
    initialize_room s =
      { s with grid := fun a b =>
          if 1 ≤ a ∧ a < SIZE - 1 ∧ 1 ≤ b ∧ b < SIZE - 1 then AMBIENT else s.grid a b } := by
  have inner : ∀ (i : Int) (t : State),
      forRange 1 (SIZE - 1) (fun j s2 => { s2 with grid := s2.grid.write i j AMBIENT }) t =
        { t with grid := fun a b =>
            if a = i ∧ 1 ≤ b ∧ b < SIZE - 1 then AMBIENT else t.grid a b } := by
    intro i t
    apply forRange_eq_of_step 1 (SIZE - 1) _
      (fun j =>
        ({ t with grid := fun a b =>
            if a = i ∧ 1 ≤ b ∧ b < j then AMBIENT else t.grid a b } : State))
    · simp [SIZE]
    · apply State.ext <;> try rfl
      exact region_empty _ _ _ (by intro a b; omega)
    · intro j hj1 hj2
      apply State.ext <;> try rfl
      exact write_region (fun _ _ => AMBIENT) t.grid (fun a b => a = i ∧ 1 ≤ b ∧ b < j)
        (fun a b => a = i ∧ 1 ≤ b ∧ b < j + 1) i j (by intro a b; omega)
  unfold initialize_room
  apply forRange_eq_of_step 1 (SIZE - 1) _
    (fun i =>
      ({ s with grid := fun a b =>
          if 1 ≤ a ∧ a < i ∧ 1 ≤ b ∧ b < SIZE - 1 then AMBIENT else s.grid a b } : State))
      s (by simp [SIZE])
  · apply State.ext <;> try rfl
    exact region_empty _ _ _ (by intro a b; omega)
  · intro i hi1 hi2
    rw [inner]
    apply State.ext <;> try rfl
    exact region_union (fun _ _ => AMBIENT) s.grid (fun a b => a = i ∧ 1 ≤ b ∧ b < SIZE - 1)
      (fun a b => 1 ≤ a ∧ a < i ∧ 1 ≤ b ∧ b < SIZE - 1)
      (fun a b => 1 ≤ a ∧ a < i + 1 ∧ 1 ≤ b ∧ b < SIZE - 1) (by intro a b; omega)

/-- One heater: its square footprint is set to `HOT`, nothing else changes. -/
theorem heat_new_grid_eq (i : Int) (s : State) :
    heat_new_grid i s =
      { s with new_grid := fun a b =>
          if s.heater_location_x i ≤ a ∧ a < s.heater_location_x i + HEATER_SIZE ∧
            s.heater_location_y i ≤ b ∧ b < s.heater_location_y i + HEATER_SIZE
          then HOT else s.new_grid a b } := by
  have inner : ∀ (x : Int) (t : State),
      forRange 0 HEATER_SIZE (fun y s2 => { s2 with
        new_grid :=
          s2.new_grid.write (s2.heater_location_x i + x) (s2.heater_location_y i + y) HOT }) t =
        { t with new_grid := fun a b =>
            if a = t.heater_location_x i + x ∧ t.heater_location_y i ≤ b ∧
              b < t.heater_location_y i + HEATER_SIZE
            then HOT else t.new_grid a b } := by
    intro x t
    apply forRange_eq_of_step 0 HEATER_SIZE _
      (fun y =>
        ({ t with new_grid := fun a b =>
            if a = t.heater_location_x i + x ∧ t.heater_location_y i ≤ b ∧
              b < t.heater_location_y i + y
            then HOT else t.new_grid a b } : State))
    · simp [HEATER_SIZE]
    · apply State.ext <;> try rfl
      exact region_empty _ _ _ (by intro a b; omega)
    · intro y hy1 hy2
      apply State.ext <;> try rfl
      exact write_region (fun _ _ => HOT) t.new_grid
        (fun a b => a = t.heater_location_x i + x ∧ t.heater_location_y i ≤ b ∧
          b < t.heater_location_y i + y)
        (fun a b => a = t.heater_location_x i + x ∧ t.heater_location_y i ≤ b ∧
          b < t.heater_location_y i + (y + 1))
        (t.heater_location_x i + x) (t.heater_location_y i + y) (by intro a b; omega)
  unfold heat_new_grid
  apply forRange_eq_of_step 0 HEATER_SIZE _
    (fun x =>
      ({ s with new_grid := fun a b =>
          if s.heater_location_x i ≤ a ∧ a < s.heater_location_x i + x ∧
            s.heater_location_y i ≤ b ∧ b < s.heater_location_y i + HEATER_SIZE
          then HOT else s.new_grid a b } : State)) s (by simp [HEATER_SIZE])
  · apply State.ext <;> try rfl
    exact region_empty _ _ _ (by intro a b; omega)
  · intro x hx1 hx2
    rw [inner]
    apply State.ext <;> try rfl
    exact region_union (fun _ _ => HOT) s.new_grid
      (fun a b => a = s.heater_location_x i + x ∧ s.heater_location_y i ≤ b ∧
        b < s.heater_location_y i + HEATER_SIZE)
      (fun a b => s.heater_location_x i ≤ a ∧ a < s.heater_location_x i + x ∧
        s.heater_location_y i ≤ b ∧ b < s.heater_location_y i + HEATER_SIZE)
      (fun a b => s.heater_location_x i ≤ a ∧ a < s.heater_location_x i + (x + 1) ∧
        s.heater_location_y i ≤ b ∧ b < s.heater_location_y i + HEATER_SIZE)
      (by intro a b; omega)

theorem heat_grid_eq (i : Int) (s : State) :
    heat_grid i s =
      { s with grid := fun a b =>
          if s.heater_location_x i ≤ a ∧ a < s.heater_location_x i + HEATER_SIZE ∧
            s.heater_location_y i ≤ b ∧ b < s.heater_location_y i + HEATER_SIZE
          then HOT else s.grid a b } := by
  have inner : ∀ (x : Int) (t : State),
      forRange 0 HEATER_SIZE (fun y s2 => { s2 with
        grid :=
          s2.grid.write (s2.heater_location_x i + x) (s2.heater_location_y i + y) HOT }) t =
        { t with grid := fun a b =>
            if a = t.heater_location_x i + x ∧ t.heater_location_y i ≤ b ∧
              b < t.heater_location_y i + HEATER_SIZE
            then HOT else t.grid a b } := by
    intro x t
    apply forRange_eq_of_step 0 HEATER_SIZE _
      (fun y =>
        ({ t with grid := fun a b =>
            if a = t.heater_location_x i + x ∧ t.heater_location_y i ≤ b ∧
              b < t.heater_location_y i + y
            then HOT else t.grid a b } : State))
    · simp [HEATER_SIZE]
    · apply State.ext <;> try rfl
      exact region_empty _ _ _ (by intro a b; omega)
    · intro y hy1 hy2
      apply State.ext <;> try rfl
      exact write_region (fun _ _ => HOT) t.grid
        (fun a b => a = t.heater_location_x i + x ∧ t.heater_location_y i ≤ b ∧
          b < t.heater_location_y i + y)
        (fun a b => a = t.heater_location_x i + x ∧ t.heater_location_y i ≤ b ∧
          b < t.heater_location_y i + (y + 1))
        (t.heater_location_x i + x) (t.heater_location_y i + y) (by intro a b; omega)
  unfold heat_grid
  apply forRange_eq_of_step 0 HEATER_SIZE _
    (fun x =>
      ({ s with grid := fun a b =>
          if s.heater_location_x i ≤ a ∧ a < s.heater_location_x i + x ∧
            s.heater_location_y i ≤ b ∧ b < s.heater_location_y i + HEATER_SIZE
          then HOT else s.grid a b } : State)) s (by simp [HEATER_SIZE])
  · apply State.ext <;> try rfl
    exact region_empty _ _ _ (by intro a b; omega)
  · intro x hx1 hx2
    rw [inner]
    apply State.ext <;> try rfl
    exact region_union (fun _ _ => HOT) s.grid
      (fun a b => a = s.heater_location_x i + x ∧ s.heater_location_y i ≤ b ∧
        b < s.heater_location_y i + HEATER_SIZE)
      (fun a b => s.heater_location_x i ≤ a ∧ a < s.heater_location_x i + x ∧
        s.heater_location_y i ≤ b ∧ b < s.heater_location_y i + HEATER_SIZE)
      (fun a b => s.heater_location_x i ≤ a ∧ a < s.heater_location_x i + (x + 1) ∧
        s.heater_location_y i ≤ b ∧ b < s.heater_location_y i + HEATER_SIZE)
      (by intro a b; omega)

theorem forRange_two {σ : Type} (body : Int → σ → σ) (s : σ) :
    forRange 0 2 body s = body 1 (body 0 s) := by
  have e : ((2 : Int) - 0).toNat = 2 := by decide
  simp [forRange, e, forLoop]

theorem update_heaters_eq (s : State) :
    update_heaters s =
      { s with new_grid := fun a b =>
          if s.heater_location_x 1 ≤ a ∧ a < s.heater_location_x 1 + HEATER_SIZE ∧
            s.heater_location_y 1 ≤ b ∧ b < s.heater_location_y 1 + HEATER_SIZE
          then HOT
          else if s.heater_location_x 0 ≤ a ∧ a < s.heater_location_x 0 + HEATER_SIZE ∧
            s.heater_location_y 0 ≤ b ∧ b < s.heater_location_y 0 + HEATER_SIZE
          then HOT else s.new_grid a b } := by
  unfold update_heaters HEATER_COUNT
  rw [forRange_two, heat_new_grid_eq, heat_new_grid_eq]

theorem drop_heater_eq (rand : Nat → Int) (i : Int) (s : State) :
    drop_heater rand i s =
      { grid := fun a b =>
          if heater_coordinate (rand (2 * i.toNat)) ≤ a ∧
            a < heater_coordinate (rand (2 * i.toNat)) + HEATER_SIZE ∧
            heater_coordinate (rand (2 * i.toNat + 1)) ≤ b ∧
            b < heater_coordinate (rand (2 * i.toNat + 1)) + HEATER_SIZE
          then HOT else s.grid a b
        new_grid := s.new_grid
        heater_location_x := fun k =>
          if k = i then heater_coordinate (rand (2 * i.toNat)) else s.heater_location_x k
        heater_location_y := fun k =>
          if k = i then heater_coordinate (rand (2 * i.toNat + 1))
          else s.heater_location_y k } := by
  unfold drop_heater
  rw [heat_grid_eq]
  apply State.ext
  · funext a b
    simp
  · rfl
  · rfl
  · rfl

theorem drop_heaters_eq (rand : Nat → Int) (s : State) :
    drop_heaters rand s =
      { grid := fun a b =>
          if heater_coordinate (rand 2) ≤ a ∧ a < heater_coordinate (rand 2) + HEATER_SIZE ∧
            heater_coordinate (rand 3) ≤ b ∧ b < heater_coordinate (rand 3) + HEATER_SIZE
          then HOT
          else if heater_coordinate (rand 0) ≤ a ∧
            a < heater_coordinate (rand 0) + HEATER_SIZE ∧
            heater_coordinate (rand 1) ≤ b ∧ b < heater_coordinate (rand 1) + HEATER_SIZE
          then HOT else s.grid a b
        new_grid := s.new_grid
        heater_location_x := fun k =>
          if k = 1 then heater_coordinate (rand 2)
          else if k = 0 then heater_coordinate (rand 0) else s.heater_location_x k
        heater_location_y := fun k =>
          if k = 1 then heater_coordinate (rand 3)
          else if k = 0 then heater_coordinate (rand 1) else s.heater_location_y k } := by
  unfold drop_heaters HEATER_COUNT
  rw [forRange_two, drop_heater_eq, drop_heater_eq]
  apply State.ext
  · funext a b
    simp
  · rfl
  · funext k
    simp
  · funext k
    simp

/-! ## Convergence check -/

/-- A scan that sets the flag to 0 and breaks at the first index satisfying
`bad` leaves the flag alone when no index of the range is bad. -/
theorem scan_clean (bad : Int → Prop) [DecidablePred bad] (n : Nat) :
    ∀ (lo st : Int), (∀ j, lo ≤ j → j < lo + n → ¬ bad j) →
      forLoopBreak (fun j st => if bad j then ((0 : Int), true) else (st, false)) n lo st
        = st := by
  induction n with
  | zero => intro lo st _; rfl
  | succ n ih =>
    intro lo st h
    have h0 : ¬ bad lo := h lo le_rfl (by push_cast; omega)
    simp only [forLoopBreak, if_neg h0]
    exact ih (lo + 1) st (fun j h1 h2 => h j (by omega) (by push_cast; omega))

theorem scan_found (bad : Int → Prop) [DecidablePred bad] (n : Nat) :
    ∀ (lo st : Int), (∃ j, lo ≤ j ∧ j < lo + n ∧ bad j) →
      forLoopBreak (fun j st => if bad j then ((0 : Int), true) else (st, false)) n lo st
        = 0 := by
  induction n with
  | zero =>
    intro lo st h
    obtain ⟨j, h1, h2, _⟩ := h
    simp only [Nat.cast_zero] at h2
    omega
  | succ n ih =>
    intro lo st h
    by_cases h0 : bad lo
    · simp [forLoopBreak, if_pos h0]
    · simp only [forLoopBreak, if_neg h0]
      obtain ⟨j, h1, h2, h3⟩ := h
      have hne : j ≠ lo := fun e => h0 (e ▸ h3)
      exact ih (lo + 1) st ⟨j, by omega, by push_cast at h2; omega, h3⟩

theorem stability_row_clean (t : ℚ) (s : State) (i st : Int)
    (h : ∀ j, 0 ≤ j → j < SIZE → |s.grid i j - s.new_grid i j| ≤ t) :
    stability_row t s i st = st := by
  unfold stability_row forRangeBreak
  apply scan_clean (fun j => |s.grid i j - s.new_grid i j| > t)
  intro j h1 h2
  have e : (((SIZE - 0).toNat : Nat) : Int) = SIZE := by simp [SIZE]
  exact not_lt.mpr (h j h1 (by omega))

theorem stability_row_found (t : ℚ) (s : State) (i st : Int)
    (h : ∃ j, 0 ≤ j ∧ j < SIZE ∧ |s.grid i j - s.new_grid i j| > t) :
    stability_row t s i st = 0 := by
  unfold stability_row forRangeBreak
  apply scan_found (fun j => |s.grid i j - s.new_grid i j| > t)
  obtain ⟨j, h1, h2, h3⟩ := h
  have e : (((SIZE - 0).toNat : Nat) : Int) = SIZE := by simp [SIZE]
  exact ⟨j, h1, by omega, h3⟩

theorem rows_clean (t : ℚ) (s : State) (n : Nat) :
    ∀ lo : Int,
      (∀ i j, lo ≤ i → i < lo + n → 0 ≤ j → j < SIZE →
        |s.grid i j - s.new_grid i j| ≤ t) →
      forLoopBreak
        (fun i st => (stability_row t s i st, decide (stability_row t s i st = 0))) n lo 1
        = 1 := by
  induction n with
  | zero => intro lo _; rfl
  | succ n ih =>
    intro lo h
    have h0 : stability_row t s lo 1 = 1 :=
      stability_row_clean t s lo 1 (fun j h1 h2 => h lo j le_rfl (by push_cast; omega) h1 h2)
    simp only [forLoopBreak, h0]
    simp only [one_ne_zero, decide_False, Bool.false_eq_true, if_false]
    exact ih (lo + 1) (fun i j h1 h2 => h i j (by omega) (by push_cast; omega))

theorem rows_found (t : ℚ) (s : State) (n : Nat) :
    ∀ lo : Int,
      (∃ i j, lo ≤ i ∧ i < lo + n ∧ 0 ≤ j ∧ j < SIZE ∧
        |s.grid i j - s.new_grid i j| > t) →
      forLoopBreak
        (fun i st => (stability_row t s i st, decide (stability_row t s i st = 0))) n lo 1
        = 0 := by
  induction n with
  | zero =>
    intro lo h
    obtain ⟨i, j, h1, h2, _⟩ := h
    simp only [Nat.cast_zero] at h2
    omega
  | succ n ih =>
    intro lo h
    by_cases h0 : ∃ j, 0 ≤ j ∧ j < SIZE ∧ |s.grid lo j - s.new_grid lo j| > t
    · have e := stability_row_found t s lo 1 h0
      simp [forLoopBreak, e]
    · have e : stability_row t s lo 1 = 1 := by
        apply stability_row_clean
        intro j h1 h2
        by_contra hc
        exact h0 ⟨j, h1, h2, not_le.mp hc⟩
      simp only [forLoopBreak, e]
      simp only [one_ne_zero, decide_False, Bool.false_eq_true, if_false]
      obtain ⟨i, j, h1, h2, h3, h4, h5⟩ := h
      have hne : i ≠ lo := fun e1 => h0 ⟨j, h3, h4, e1 ▸ h5⟩
      exact ih (lo + 1) ⟨i, j, by omega, by push_cast at h2; omega, h3, h4, h5⟩

theorem stability_check_eq_one_iff (t : ℚ) (s : State) :
    stability_check t s = 1 ↔
      ∀ i j, 0 ≤ i → i < SIZE → 0 ≤ j → j < SIZE → |s.grid i j - s.new_grid i j| ≤ t := by
  have e : (((SIZE - 0).toNat : Nat) : Int) = SIZE := by simp [SIZE]
  constructor
  · intro h i j h1 h2 h3 h4
    by_contra hc
    have h0 := rows_found t s (SIZE - 0).toNat 0
      ⟨i, j, h1, by omega, h3, h4, not_le.mp hc⟩
    unfold stability_check forRangeBreak at h
    rw [h0] at h
    exact zero_ne_one h
  · intro h
    unfold stability_check forRangeBreak
    exact rows_clean t s _ 0 (fun i j h1 h2 h3 h4 => h i j h1 (by omega) h3 h4)

theorem stability_check_eq_zero_iff (t : ℚ) (s : State) :
    stability_check t s = 0 ↔
      ∃ i j, 0 ≤ i ∧ i < SIZE ∧ 0 ≤ j ∧ j < SIZE ∧ |s.grid i j - s.new_grid i j| > t := by
  have e : (((SIZE - 0).toNat : Nat) : Int) = SIZE := by simp [SIZE]
  constructor
  · intro h
    by_contra hc
    have h1 : stability_check t s = 1 := by
      rw [stability_check_eq_one_iff]
      intro i j h1 h2 h3 h4
      by_contra hd
      exact hc ⟨i, j, h1, h2, h3, h4, not_le.mp hd⟩
    rw [h1] at h
    exact one_ne_zero h
  · intro h
    obtain ⟨i, j, h1, h2, h3, h4, h5⟩ := h
    unfold stability_check forRangeBreak
    exact rows_found t s _ 0 ⟨i, j, h1, by omega, h3, h4, h5⟩

theorem stability_check_mono (t1 t2 : ℚ) (s : State) (h : t1 ≤ t2)
    (h1 : stability_check t1 s = 1) : stability_check t2 s = 1 := by
  rw [stability_check_eq_one_iff] at h1 ⊢
  intro i j a b c d
  exact le_trans (h1 i j a b c d) h

theorem stability_check_negative (t : ℚ) (s : State) (h : t < 0) :
    stability_check t s = 0 := by
  rw [stability_check_eq_zero_iff]
  exact ⟨0, 0, le_rfl, by simp [SIZE], le_rfl, by simp [SIZE],
    lt_of_lt_of_le h (abs_nonneg _)⟩

/-! ## Main loop -/

theorem some_rank_stable_iff (size : Int) (t : ℚ) (w : Int → State) :
    some_rank_stable size t w = true ↔
      ∃ p : Int, 0 ≤ p ∧ p < size ∧ stability_check t (w p) ≠ 0 := by
  unfold some_rank_stable
  rw [List.any_eq_true]
  constructor
  · rintro ⟨k, hk, hd⟩
    rw [List.mem_range] at hk
    refine ⟨(k : Int), by omega, by omega, ?_⟩
    simpa using hd
  · rintro ⟨p, p0, p1, hp⟩
    refine ⟨p.toNat, ?_, ?_⟩
    · rw [List.mem_range]
      omega
    · rw [Int.toNat_of_nonneg p0]
      simpa using hp

theorem main_loop_step_le (size rank : Int) (t : ℚ) (fuel : Nat) :
    ∀ (w : Int → State) (step n : Int), main_loop size rank t fuel w step = some n →
      step + 1 ≤ n := by
  induction fuel with
  | zero => intro w step n h1; simp [main_loop] at h1
  | succ fuel ih =>
    intro w step n h1
    simp only [main_loop] at h1
    split_ifs at h1 with h2 h3
    · have := ih _ _ _ h1
      omega
    · simp only [Option.some.injEq] at h1
      omega

theorem main_loop_negative (size rank : Int) (t : ℚ) (h : t < 0) (fuel : Nat) :
    ∀ (w : Int → State) (step : Int), main_loop size rank t fuel w step = none := by
  induction fuel with
  | zero => intro w step; rfl
  | succ fuel ih =>
    intro w step
    simp only [main_loop, stability_check_negative t _ h, if_true]
    split_ifs
    · rfl
    · exact ih _ _

/-- A process that finds `isStable` set in the first iteration leaves the loop
with `step + 1`. -/
theorem main_loop_leaves (size rank : Int) (t : ℚ) (fuel : Nat) (w : Int → State)
    (step : Int) (h : stability_check t (step_phase size w rank) = 1) :
    main_loop size rank t (fuel + 1) w step = some (step + 1) := by
  simp only [main_loop]
  rw [h]
  simp

/-- A process that does not find `isStable` set while another process does
never leaves the loop. -/
theorem main_loop_blocked (size rank : Int) (t : ℚ) (fuel : Nat) (w : Int → State)
    (step : Int) (h : stability_check t (step_phase size w rank) = 0)
    (p : Int) (p0 : 0 ≤ p) (p1 : p < size)
    (hp : stability_check t (step_phase size w p) = 1) :
    main_loop size rank t fuel w step = none := by
  cases fuel with
  | zero => rfl
  | succ fuel =>
    simp only [main_loop]
    rw [if_pos h, if_pos]
    rw [some_rank_stable_iff]
    exact ⟨p, p0, p1, by rw [hp]; exact one_ne_zero⟩

/-- While no process finds `isStable` set, every process goes on to the next
iteration. -/
theorem main_loop_continues (size rank : Int) (t : ℚ) (fuel : Nat) (w : Int → State)
    (step : Int)
    (h : ∀ p : Int, 0 ≤ p → p < size → stability_check t (step_phase size w p) = 0)
    (hr : stability_check t (step_phase size w rank) = 0) :
    main_loop size rank t (fuel + 1) w step =
      main_loop size rank t fuel (next_iteration size w) (step + 1) := by
  simp only [main_loop]
  rw [if_pos hr, if_neg]
  rw [some_rank_stable_iff]
  rintro ⟨p, p0, p1, hp⟩
  exact hp (h p p0 p1)

/-! ## Collective merge -/

theorem flat_index (g : Grid) (i j : Int) (h0 : 0 ≤ j) (h1 : j < SIZE) :
    flat g (i * SIZE + j) = g i j := by
  unfold flat
  have e1 : (i * SIZE + j) / SIZE = i := by simp only [SIZE] at *; omega
  have e2 : (i * SIZE + j) % SIZE = j := by simp only [SIZE] at *; omega
  rw [e1, e2]

theorem block_index (c i j : Int) (hc : 0 < c) (h0 : 0 ≤ j) (h1 : j < SIZE) :
    (i * SIZE + j) / (c * SIZE) = i / c ∧
      (i * SIZE + j) % (c * SIZE) = (i % c) * SIZE + j := by
  have hm0 : 0 ≤ i % c := Int.emod_nonneg _ (by omega)
  have hm1 : i % c < c := Int.emod_lt_of_pos _ hc
  have hs : i % c + c * (i / c) = i := Int.emod_add_ediv i c
  apply (Int.ediv_emod_unique (by simp only [SIZE]; omega)).mpr
  refine ⟨?_, ?_, ?_⟩
  · have e : i % c * SIZE + j + c * SIZE * (i / c) = (i % c + c * (i / c)) * SIZE + j := by
      ring
    rw [e, hs]
  · simp only [SIZE] at *; omega
  · simp only [SIZE] at *; omega

/-- Row form of the merge: block `p` of the receive buffer, rows
`[p * chunk_size, (p+1) * chunk_size)`, receives the `chunk_size` rows that
rank `p` holds from its `start_row` on; rows from `size * chunk_size` on keep
the receiver's own values. -/
theorem allgather_new_grid_row (size : Int) (w : Int → State) (r i j : Int)
    (hc : 0 < chunk_size SIZE size) (h0 : 0 ≤ j) (h1 : j < SIZE) :
    (allgather_new_grid size w r).new_grid i j =
      if 0 ≤ i ∧ i < size * chunk_size SIZE size then
        (w (i / chunk_size SIZE size)).new_grid
          (start_row SIZE size (i / chunk_size SIZE size) + i % chunk_size SIZE size) j
      else (w r).new_grid i j := by
  unfold allgather_new_grid MPI_Allgather
  simp only [h0, h1, and_self, if_true]
  have hk : (0 ≤ i * SIZE + j ∧ i * SIZE + j < size * (chunk_size SIZE size * SIZE)) ↔
      (0 ≤ i ∧ i < size * chunk_size SIZE size) := by
    have e : size * (chunk_size SIZE size * SIZE) = (size * chunk_size SIZE size) * SIZE := by
      ring
    rw [e]
    generalize size * chunk_size SIZE size = sc
    simp only [SIZE] at *
    omega
  by_cases h : 0 ≤ i ∧ i < size * chunk_size SIZE size
  · rw [if_pos h, if_pos (hk.mpr h)]
    obtain ⟨b1, b2⟩ := block_index (chunk_size SIZE size) i j hc h0 h1
    rw [b1, b2]
    have e : start_row SIZE size (i / chunk_size SIZE size) * SIZE +
        (i % chunk_size SIZE size * SIZE + j) =
        (start_row SIZE size (i / chunk_size SIZE size) + i % chunk_size SIZE size) * SIZE
          + j := by ring
    rw [e, flat_index _ _ _ h0 h1]
  · rw [if_neg h, if_neg (fun hh => h (hk.mp hh))]
    exact flat_index _ _ _ h0 h1

theorem stencil_eq_mean (g : Grid) (i j : Int) :
    stencil g i j = (g (i + 1) j + g (i - 1) j + g i (j + 1) + g i (j - 1)) / 4 := by
  unfold stencil K
  ring

theorem stencil_unit (g : Grid) (i j : Int) (h : ∀ a b, 0 ≤ g a b ∧ g a b ≤ 1) :
    0 ≤ stencil g i j ∧ stencil g i j ≤ 1 := by
  rw [stencil_eq_mean]
  have h1 := h (i + 1) j
  have h2 := h (i - 1) j
  have h3 := h i (j + 1)
  have h4 := h i (j - 1)
  constructor
  · linarith
  · linarith

theorem update_grid_unit (sr er : Int) (s : State) (h : UnitRange s) :
    UnitRange (update_grid sr er s) := by
  rw [update_grid_eq]
  intro a b
  refine ⟨(h a b).1, ?_⟩
  show (0 ≤ ite _ _ _ ∧ ite _ _ _ ≤ 1)
  split_ifs
  · exact stencil_unit s.grid a b (fun x y => (h x y).1)
  · exact (h a b).2

theorem allgather_unit (size : Int) (w : Int → State) (h : ∀ r, UnitRange (w r)) (r : Int) :
    UnitRange (allgather_new_grid size w r) := by
  intro a b
  refine ⟨(h r a b).1, ?_⟩
  show (0 ≤ ite _ _ _ ∧ ite _ _ _ ≤ 1)
  unfold MPI_Allgather flat
  split_ifs
  · exact (h _ _ _).2
  · exact (h _ _ _).2
  · exact (h _ _ _).2

theorem initialize_walls_unit (s : State) (h : UnitRange s) :
    UnitRange (initialize_walls s) := by
  rw [initialize_walls_eq]
  intro a b
  show (0 ≤ ite _ _ _ ∧ ite _ _ _ ≤ 1) ∧ (0 ≤ ite _ _ _ ∧ ite _ _ _ ≤ 1)
  unfold COLD
  constructor
  · split_ifs
    · exact ⟨le_rfl, zero_le_one⟩
    · exact (h a b).1
  · split_ifs
    · exact ⟨le_rfl, zero_le_one⟩
    · exact (h a b).2

theorem update_heaters_unit (s : State) (h : UnitRange s) :
    UnitRange (update_heaters s) := by
  rw [update_heaters_eq]
  intro a b
  refine ⟨(h a b).1, ?_⟩
  show (0 ≤ ite _ _ _ ∧ ite _ _ _ ≤ 1)
  unfold HOT
  split_ifs
  · exact ⟨zero_le_one, le_rfl⟩
  · exact ⟨zero_le_one, le_rfl⟩
  · exact (h a b).2

theorem step_phase_unit (size : Int) (w : Int → State) (h : ∀ r, UnitRange (w r)) (r : Int) :
    UnitRange (step_phase size w r) := by
  unfold step_phase
  apply update_heaters_unit
  apply initialize_walls_unit
  apply allgather_unit
  intro p
  exact update_grid_unit _ _ _ (h p)

theorem initial_state_unit (rand : Nat → Int) : UnitRange (initial_state rand) := by
  unfold initial_state
  rw [drop_heaters_eq, initialize_room_eq, initialize_walls_eq]
  intro a b
  show (0 ≤ ite _ _ _ ∧ ite _ _ _ ≤ 1) ∧ (0 ≤ ite _ _ _ ∧ ite _ _ _ ≤ 1)
  simp only [HOT, AMBIENT, COLD, zero_state]
  constructor
  · split_ifs <;> norm_num
  · split_ifs <;> norm_num

theorem stability_check_unit (t : ℚ) (s : State) (ht : 1 ≤ t) (h : UnitRange s) :
    stability_check t s = 1 := by
  rw [stability_check_eq_one_iff]
  intro i j _ _ _ _
  have h1 := (h i j).1
  have h2 := (h i j).2
  apply le_trans _ ht
  rw [abs_le]
  constructor <;> linarith

/-- With a threshold of at least 1 and all cells in `[0, 1]` the loop is left
after its first iteration. -/
theorem main_loop_unit (size rank : Int) (t : ℚ) (ht : 1 ≤ t) (fuel : Nat)
    (w : Int → State) (h : ∀ r, UnitRange (w r)) (step : Int) :
    main_loop size rank t (fuel + 1) w step = some (step + 1) :=
  main_loop_leaves size rank t fuel w step
    (stability_check_unit t _ ht (step_phase_unit size w h rank))

/-! ## A run with seven processes -/

theorem heater_coordinate_zero : heater_coordinate 0 = 1 := by decide

theorem chunk_size_seven : chunk_size SIZE 7 = 42 := by decide

theorem initial_grid_eq :
    (initial_state (fun _ => 0)).grid = fun a b =>
      if 1 ≤ a ∧ a < 51 ∧ 1 ≤ b ∧ b < 51 then 1
      else if 1 ≤ a ∧ a < 299 ∧ 1 ≤ b ∧ b < 299 then 1 / 2 else 0 := by
  unfold initial_state
  rw [drop_heaters_eq, initialize_room_eq, initialize_walls_eq]
  funext a b
  simp only [heater_coordinate_zero, HEATER_SIZE, SIZE, HOT, AMBIENT, COLD, zero_state]
  split_ifs <;> first | rfl | (exfalso; omega)

theorem initial_new_grid_eq (rand : Nat → Int) :
    (initial_state rand).new_grid = fun _ _ => 0 := by
  unfold initial_state
  rw [drop_heaters_eq, initialize_room_eq, initialize_walls_eq]
  funext a b
  simp only [COLD, zero_state]
  split_ifs <;> rfl

/-- Wherever the heaters are dropped, an interior cell of the initial room
holds `AMBIENT` or `HOT`. -/
theorem initial_grid_interior (rand : Nat → Int) (a b : Int) (a0 : 1 ≤ a)
    (a1 : a < SIZE - 1) (b0 : 1 ≤ b) (b1 : b < SIZE - 1) :
    1 / 2 ≤ (initial_state rand).grid a b := by
  unfold initial_state
  rw [drop_heaters_eq, initialize_room_eq, initialize_walls_eq]
  show 1 / 2 ≤ ite _ _ _
  simp only [HOT, AMBIENT]
  rw [if_pos (⟨a0, a1, b0, b1⟩ : 1 ≤ a ∧ a < SIZE - 1 ∧ 1 ≤ b ∧ b < SIZE - 1)]
  split_ifs <;> norm_num

theorem compute_phase_seven (rand : Nat → Int) (r : Int) :
    (compute_phase 7 (initial_workers rand) r).new_grid = fun a b =>
      if start_row SIZE 7 r - 1 ≤ a ∧ a < end_row SIZE 7 r ∧ 1 ≤ b ∧ b < SIZE - 1 then
        stencil (initial_state rand).grid a b
      else 0 := by
  unfold compute_phase initial_workers
  rw [update_grid_eq, initial_new_grid_eq]

theorem start_row_seven_one : start_row SIZE 7 1 = 43 ∧ end_row SIZE 7 1 = 86 := by decide

theorem start_row_seven_six : start_row SIZE 7 6 = 258 ∧ end_row SIZE 7 6 = 300 := by decide

theorem start_row_seven_zero : start_row SIZE 7 0 = 0 ∧ end_row SIZE 7 0 = 43 := by decide

theorem allgather_seven_shift (w : Int → State) (r : Int) :
    (allgather_new_grid 7 w r).new_grid 50 5 = (w 1).new_grid 51 5 := by
  have e : start_row 300 7 1 = 43 := start_row_seven_one.1
  unfold allgather_new_grid MPI_Allgather flat
  simp only [chunk_size_seven]
  simp only [SIZE]
  norm_num [e]

theorem allgather_seven_stale (w : Int → State) (r : Int) :
    (allgather_new_grid 7 w r).new_grid 295 5 = (w r).new_grid 295 5 := by
  unfold allgather_new_grid MPI_Allgather flat
  simp only [chunk_size_seven]
  simp only [SIZE]
  norm_num

/-! ## Partitioner: sizes and tiling -/

theorem row_count (n size rank : Int) :
    end_row n size rank - start_row n size rank =
      if rank < remainder n size then chunk_size n size + 1 else chunk_size n size := by
  unfold end_row
  split_ifs <;> ring

theorem row_owner_exists (n size i : Int) (hn : 0 ≤ n) (hs : 1 ≤ size) (i0 : 0 ≤ i)
    (i1 : i < n) :
    ∃ rank : Int, 0 ≤ rank ∧ rank < size ∧
      start_row n size rank ≤ i ∧ i < end_row n size rank := by
  have e : ((size.toNat : Nat) : Int) = size := Int.toNat_of_nonneg (by omega)
  obtain ⟨rank, c, d, f, g⟩ := row_owner_below n size hn hs size.toNat i i0
    (by rw [e, start_row_size n size hn hs]; exact i1)
  exact ⟨rank, c, by omega, f, g⟩

theorem row_owner_unique (n size i r1 r2 : Int) (hn : 0 ≤ n) (hs : 1 ≤ size)
    (a1 : start_row n size r1 ≤ i) (b1 : i < end_row n size r1)
    (a2 : start_row n size r2 ≤ i) (b2 : i < end_row n size r2) : r1 = r2 := by
  rw [end_row_eq_start_row_succ] at b1 b2
  by_contra hne
  rcases lt_or_gt_of_ne hne with h | h
  · have := start_row_mono n size hn hs (r1 + 1) r2 (by omega)
    omega
  · have := start_row_mono n size hn hs (r2 + 1) r1 (by omega)
    omega

/-! ## Heater placement -/

theorem heater_coordinate_bounds (r : Int) (h : 0 ≤ r) :
    1 ≤ heater_coordinate r ∧ heater_coordinate r ≤ SIZE - HEATER_SIZE - 1 := by
  unfold heater_coordinate
  rw [Int.tmod_eq_emod h (by simp [SIZE, HEATER_SIZE])]
  simp only [SIZE, HEATER_SIZE]
  omega

/-! ## Stencil values -/

theorem update_grid_new_grid (sr er : Int) (s : State) (i j : Int) (h : sr - 1 ≤ i)
    (h1 : i < er) (j0 : 1 ≤ j) (j1 : j ≤ SIZE - 2) :
    (update_grid sr er s).new_grid i j = stencil s.grid i j := by
  rw [update_grid_eq]
  show (if _ then _ else _) = _
  rw [if_pos ⟨h, h1, j0, by omega⟩]

/-- On a grid that holds `1/2` everywhere except `1` at `(ci, cj)` the stencil
value at `(ci, cj)` is `1/2`. -/
theorem stencil_spike_centre (g : Grid) (ci cj : Int)
    (hg : ∀ a b, g a b = if a = ci ∧ b = cj then 1 else 1 / 2) :
    stencil g ci cj = 1 / 2 := by
  unfold stencil K
  rw [hg ci cj, hg (ci + 1) cj, hg (ci - 1) cj, hg ci (cj + 1), hg ci (cj - 1)]
  rw [if_pos ⟨rfl, rfl⟩, if_neg (by omega), if_neg (by omega), if_neg (by omega),
    if_neg (by omega)]
  norm_num

theorem stencil_spike_neighbour (g : Grid) (ci cj a b : Int)
    (hg : ∀ a b, g a b = if a = ci ∧ b = cj then 1 else 1 / 2)
    (hn : (a = ci + 1 ∧ b = cj) ∨ (a = ci - 1 ∧ b = cj) ∨ (a = ci ∧ b = cj + 1) ∨
      (a = ci ∧ b = cj - 1)) :
    stencil g a b = 5 / 8 ∧ g a b = 1 / 2 := by
  unfold stencil K
  rw [hg a b, hg (a + 1) b, hg (a - 1) b, hg a (b + 1), hg a (b - 1)]
  rcases hn with ⟨rfl, rfl⟩ | ⟨rfl, rfl⟩ | ⟨rfl, rfl⟩ | ⟨rfl, rfl⟩
  · rw [if_neg (by omega), if_neg (by omega), if_pos ⟨by omega, rfl⟩, if_neg (by omega),
      if_neg (by omega)]
    norm_num
  · rw [if_neg (by omega), if_pos ⟨by omega, rfl⟩, if_neg (by omega), if_neg (by omega),
      if_neg (by omega)]
    norm_num
  · rw [if_neg (by omega), if_neg (by omega), if_neg (by omega), if_neg (by omega),
      if_pos ⟨rfl, by omega⟩]
    norm_num
  · rw [if_neg (by omega), if_neg (by omega), if_neg (by omega), if_pos ⟨rfl, by omega⟩,
      if_neg (by omega)]
    norm_num

/-- Rows strictly inside the walls only read cells of the array: values in
`[0, 1]` inside the array give written values in `[0, 1]` there. -/
theorem update_grid_unit_inside (sr er : Int) (s : State)
    (h : ∀ a b, InArray a b → 0 ≤ s.grid a b ∧ s.grid a b ≤ 1) (i j : Int)
    (hb0 : sr - 1 ≤ i) (hb1 : i < er) (i0 : 1 ≤ i) (i1 : i ≤ SIZE - 2) (j0 : 1 ≤ j)
    (j1 : j ≤ SIZE - 2) :
    0 ≤ (update_grid sr er s).new_grid i j ∧ (update_grid sr er s).new_grid i j ≤ 1 := by
  rw [update_grid_new_grid sr er s i j hb0 hb1 j0 j1, stencil_eq_mean]
  have h1 := h (i + 1) j (by unfold InArray; simp only [SIZE] at *; omega)
  have h2 := h (i - 1) j (by unfold InArray; simp only [SIZE] at *; omega)
  have h3 := h i (j + 1) (by unfold InArray; simp only [SIZE] at *; omega)
  have h4 := h i (j - 1) (by unfold InArray; simp only [SIZE] at *; omega)
  constructor <;> linarith

/-! ## One step without the heaters -/

theorem compute_phase_grid (size : Int) (w : Int → State) (r : Int) :
    (compute_phase size w r).grid = (w r).grid ∧
    (compute_phase size w r).heater_location_x = (w r).heater_location_x ∧
    (compute_phase size w r).heater_location_y = (w r).heater_location_y := by
  unfold compute_phase
  rw [update_grid_eq]
  exact ⟨rfl, rfl, rfl⟩

theorem initial_state_eq (rand : Nat → Int) :
    (initial_state rand).grid = (fun a b =>
      if heater_coordinate (rand 2) ≤ a ∧ a < heater_coordinate (rand 2) + HEATER_SIZE ∧
        heater_coordinate (rand 3) ≤ b ∧ b < heater_coordinate (rand 3) + HEATER_SIZE
      then HOT
      else if heater_coordinate (rand 0) ≤ a ∧ a < heater_coordinate (rand 0) + HEATER_SIZE ∧
        heater_coordinate (rand 1) ≤ b ∧ b < heater_coordinate (rand 1) + HEATER_SIZE
      then HOT
      else if 1 ≤ a ∧ a < SIZE - 1 ∧ 1 ≤ b ∧ b < SIZE - 1 then AMBIENT
      else if InArray a b ∧ (a = 0 ∨ a = SIZE - 1 ∨ b = 0 ∨ b = SIZE - 1) then COLD
      else 0) ∧
    (initial_state rand).heater_location_x = (fun k =>
      if k = 1 then heater_coordinate (rand 2)
      else if k = 0 then heater_coordinate (rand 0) else 0) ∧
    (initial_state rand).heater_location_y = (fun k =>
      if k = 1 then heater_coordinate (rand 3)
      else if k = 0 then heater_coordinate (rand 1) else 0) := by
  unfold initial_state
  rw [drop_heaters_eq, initialize_room_eq, initialize_walls_eq]
  exact ⟨rfl, rfl, rfl⟩

theorem heaters_walls_eq (m : State) :
    (update_heaters (initialize_walls m)).new_grid = (fun a b =>
      if m.heater_location_x 1 ≤ a ∧ a < m.heater_location_x 1 + HEATER_SIZE ∧
          m.heater_location_y 1 ≤ b ∧ b < m.heater_location_y 1 + HEATER_SIZE
        then HOT
        else if m.heater_location_x 0 ≤ a ∧ a < m.heater_location_x 0 + HEATER_SIZE ∧
          m.heater_location_y 0 ≤ b ∧ b < m.heater_location_y 0 + HEATER_SIZE
        then HOT
        else if InArray a b ∧ (a = 0 ∨ a = SIZE - 1 ∨ b = 0 ∨ b = SIZE - 1) then COLD
        else m.new_grid a b) ∧
    (update_heaters (initialize_walls m)).grid = (fun a b =>
      if InArray a b ∧ (a = 0 ∨ a = SIZE - 1 ∨ b = 0 ∨ b = SIZE - 1) then COLD
      else m.grid a b) ∧
    (update_heaters (initialize_walls m)).heater_location_x = m.heater_location_x ∧
    (update_heaters (initialize_walls m)).heater_location_y = m.heater_location_y := by
  rw [update_heaters_eq, initialize_walls_eq]
  exact ⟨rfl, rfl, rfl, rfl⟩

theorem step_phase_eq (size : Int) (w : Int → State) (r : Int) :
    (step_phase size w r).new_grid = (fun a b =>
      if (w r).heater_location_x 1 ≤ a ∧ a < (w r).heater_location_x 1 + HEATER_SIZE ∧
          (w r).heater_location_y 1 ≤ b ∧ b < (w r).heater_location_y 1 + HEATER_SIZE
        then HOT
        else if (w r).heater_location_x 0 ≤ a ∧ a < (w r).heater_location_x 0 + HEATER_SIZE ∧
          (w r).heater_location_y 0 ≤ b ∧ b < (w r).heater_location_y 0 + HEATER_SIZE
        then HOT
        else if InArray a b ∧ (a = 0 ∨ a = SIZE - 1 ∨ b = 0 ∨ b = SIZE - 1) then COLD
        else (allgather_new_grid size (compute_phase size w) r).new_grid a b) ∧
    (step_phase size w r).grid = (fun a b =>
      if InArray a b ∧ (a = 0 ∨ a = SIZE - 1 ∨ b = 0 ∨ b = SIZE - 1) then COLD
      else (w r).grid a b) ∧
    (step_phase size w r).heater_location_x = (w r).heater_location_x ∧
    (step_phase size w r).heater_location_y = (w r).heater_location_y := by
  obtain ⟨e1, e2, e3, e4⟩ :=
    heaters_walls_eq (allgather_new_grid size (compute_phase size w) r)
  obtain ⟨c1, c2, c3⟩ := compute_phase_grid size w r
  have hx : (allgather_new_grid size (compute_phase size w) r).heater_location_x
      = (w r).heater_location_x := c2
  have hy : (allgather_new_grid size (compute_phase size w) r).heater_location_y
      = (w r).heater_location_y := c3
  have hg : (allgather_new_grid size (compute_phase size w) r).grid = (w r).grid := c1
  unfold step_phase
  rw [e1, e2, e3, e4, hx, hy, hg]
  exact ⟨rfl, rfl, rfl, rfl⟩

theorem next_iteration_eq (size : Int) (w : Int → State) (r : Int) :
    (next_iteration size w r).grid = (fun a b =>
      if InArray a b then (step_phase size w r).new_grid a b
      else (step_phase size w r).grid a b) ∧
    (next_iteration size w r).new_grid = (step_phase size w r).new_grid ∧
    (next_iteration size w r).heater_location_x = (w r).heater_location_x ∧
    (next_iteration size w r).heater_location_y = (w r).heater_location_y := by
  obtain ⟨_, _, e3, e4⟩ := step_phase_eq size w r
  unfold next_iteration
  rw [copy_room_eq]
  refine ⟨rfl, rfl, ?_, ?_⟩
  · dsimp only
    exact e3
  · dsimp only
    exact e4

/-! ## The first two iterations with seven processes -/

/-- With seven processes rows 0 to 293 of the merged array hold what rank
`a / 42` computed for row `a + a / 42`. -/
theorem merged_seven_row (w : Int → State) (r a b : Int) (a0 : 0 ≤ a) (a1 : a < 294)
    (b0 : 1 ≤ b) (b1 : b ≤ SIZE - 2) :
    (allgather_new_grid 7 (compute_phase 7 w) r).new_grid a b =
      stencil (w (a / 42)).grid (a + a / 42) b := by
  have hc : 0 < chunk_size SIZE 7 := by decide
  have hr : remainder SIZE 7 = 6 := by decide
  rw [allgather_new_grid_row 7 _ r a b hc (by omega) (by simp only [SIZE] at *; omega)]
  have hs : start_row SIZE 7 (a / 42) + a % 42 = a + a / 42 := by
    rw [start_row_closed, chunk_size_seven, hr]
    omega
  have he : end_row SIZE 7 (a / 42) = (a / 42 + 1) * 42 + min (a / 42 + 1) 6 := by
    rw [end_row_eq_start_row_succ, start_row_closed, chunk_size_seven, hr]
  have hst : start_row SIZE 7 (a / 42) = (a / 42) * 42 + min (a / 42) 6 := by
    rw [start_row_closed, chunk_size_seven, hr]
  rw [chunk_size_seven, if_pos ⟨a0, by omega⟩, hs]
  unfold compute_phase
  exact update_grid_new_grid _ _ _ _ _ (by rw [hst]; omega) (by rw [he]; omega) b0 b1

/-- With seven processes rows from 294 on are not touched by the merge. -/
theorem merged_seven_rest (w : Int → State) (r a b : Int) (a0 : 294 ≤ a)
    (b0 : 0 ≤ b) (b1 : b < SIZE) :
    (allgather_new_grid 7 (compute_phase 7 w) r).new_grid a b =
      (compute_phase 7 w r).new_grid a b := by
  have hc : 0 < chunk_size SIZE 7 := by decide
  rw [allgather_new_grid_row 7 _ r a b hc b0 b1, chunk_size_seven, if_neg (by omega)]

/-- The state of every process of the run in which `rand()` returns 0. -/
theorem initial_workers_eq (r : Int) :
    (initial_workers (fun _ => 0) r).grid = (initial_state (fun _ => 0)).grid ∧
    (initial_workers (fun _ => 0) r).new_grid = (fun _ _ => 0) ∧
    (∀ k : Int, 0 ≤ k → k < 2 → (initial_workers (fun _ => 0) r).heater_location_x k = 1) ∧
    (∀ k : Int, 0 ≤ k → k < 2 → (initial_workers (fun _ => 0) r).heater_location_y k = 1) := by
  obtain ⟨_, ex, ey⟩ := initial_state_eq (fun _ => 0)
  unfold initial_workers
  rw [ex, ey, initial_new_grid_eq]
  refine ⟨rfl, rfl, ?_, ?_⟩
  · intro k k0 k1
    have hk : k = 0 ∨ k = 1 := by omega
    rcases hk with rfl | rfl <;> simp [heater_coordinate_zero]
  · intro k k0 k1
    have hk : k = 0 ∨ k = 1 := by omega
    rcases hk with rfl | rfl <;> simp [heater_coordinate_zero]

/-- The initial grid with both heaters at `(1, 1)`, cell by cell. -/
theorem initial_grid_value (a b : Int) :
    (initial_state (fun _ => 0)).grid a b =
      if 1 ≤ a ∧ a < 51 ∧ 1 ≤ b ∧ b < 51 then 1
      else if 1 ≤ a ∧ a < 299 ∧ 1 ≤ b ∧ b < 299 then 1 / 2 else 0 := by
  rw [initial_grid_eq]

/-- The array of every process after the first update, merge, walls and
heaters of the run with seven processes and both heaters at `(1, 1)`. -/
theorem first_step_new_grid (r a b : Int) (r0 : 0 ≤ r) (r1 : r < 7) (hin : InArray a b) :
    (step_phase 7 (initial_workers (fun _ => 0)) r).new_grid a b =
      if 1 ≤ a ∧ a < 51 ∧ 1 ≤ b ∧ b < 51 then 1
      else if a = 0 ∨ a = 299 ∨ b = 0 ∨ b = 299 then 0
      else if a < 294 then stencil (initial_state (fun _ => 0)).grid (a + a / 42) b
      else if r = 6 then stencil (initial_state (fun _ => 0)).grid a b
      else 0 := by
  obtain ⟨e1, _, _, _⟩ := step_phase_eq 7 (initial_workers (fun _ => 0)) r
  obtain ⟨wg, wn, hx, hy⟩ := initial_workers_eq r
  rw [e1]
  dsimp only
  rw [hx 0 le_rfl (by decide), hx 1 (by decide) (by decide), hy 0 le_rfl (by decide),
    hy 1 (by decide) (by decide)]
  unfold InArray at hin
  simp only [SIZE, HEATER_SIZE, HOT, COLD, InArray] at *
  by_cases hH : 1 ≤ a ∧ a < 51 ∧ 1 ≤ b ∧ b < 51
  · rw [if_pos (by omega), if_pos hH]
  · rw [if_neg (by omega), if_neg (by omega), if_neg hH]
    by_cases hE : a = 0 ∨ a = 299 ∨ b = 0 ∨ b = 299
    · rw [if_pos ⟨hin, by omega⟩, if_pos hE]
    · rw [if_neg (by omega), if_neg hE]
      by_cases ha : a < 294
      · rw [if_pos ha, merged_seven_row _ r a b (by omega) ha (by omega)
          (by simp only [SIZE]; omega), (initial_workers_eq (a / 42)).1]
      · rw [if_neg ha, merged_seven_rest _ r a b (by omega) (by omega)
          (by simp only [SIZE]; omega)]
        unfold compute_phase
        rw [update_grid_eq]
        dsimp only
        rw [wg, wn]
        have hr : remainder SIZE 7 = 6 := by decide
        have hst : start_row SIZE 7 r = r * 42 + min r 6 := by
          rw [start_row_closed, chunk_size_seven, hr]
        have he : end_row SIZE 7 r = (r + 1) * 42 + min (r + 1) 6 := by
          rw [end_row_eq_start_row_succ, start_row_closed, chunk_size_seven, hr]
        rw [hst, he]
        simp only [SIZE]
        by_cases h6 : r = 6
        · rw [if_pos h6, if_pos (by omega)]
        · rw [if_neg h6, if_neg (by omega)]

/-- The first iteration leaves `grid` as it was until `copy_room`. -/
theorem first_step_grid (r a b : Int) :
    (step_phase 7 (initial_workers (fun _ => 0)) r).grid a b =
      (initial_state (fun _ => 0)).grid a b := by
  obtain ⟨_, e2, _, _⟩ := step_phase_eq 7 (initial_workers (fun _ => 0)) r
  obtain ⟨wg, _, _, _⟩ := initial_workers_eq r
  rw [e2]
  dsimp only
  rw [wg, initial_grid_value]
  simp only [SIZE, COLD, InArray]
  split_ifs <;> first | rfl | (exfalso; omega)

/-- On the initial grid the stencil value of an interior cell that is neither
in nor next to the heaters is within `1/4` of `AMBIENT`. -/
theorem stencil_initial_bound (s b : Int) (s0 : 1 ≤ s) (s1 : s ≤ 298) (b0 : 1 ≤ b)
    (b1 : b ≤ 298) (hH : b ≤ 50 → 52 ≤ s) :
    |stencil (initial_state (fun _ => 0)).grid s b - 1 / 2| ≤ 1 / 4 := by
  rw [stencil_eq_mean, initial_grid_value, initial_grid_value, initial_grid_value,
    initial_grid_value]
  split_ifs <;>
    first
    | (exfalso; omega)
    | (rw [abs_le]; constructor <;> norm_num)

/-- On the initial grid the stencil value computed at row 299 is `1/8`. -/
theorem stencil_initial_last_row (b : Int) (b0 : 1 ≤ b) (b1 : b ≤ 298) :
    stencil (initial_state (fun _ => 0)).grid 299 b = 1 / 8 := by
  rw [stencil_eq_mean, initial_grid_value, initial_grid_value, initial_grid_value,
    initial_grid_value]
  split_ifs <;>
    first
    | (exfalso; omega)
    | norm_num

/-- How far the first iteration moves a cell that a later update reads: at
most `3/8`, and at most `1/4` outside row 293. Rows from 294 on are covered on
rank 6 only, the other ranks keep stale values there. -/
theorem first_change_bound (p x y : Int) (p0 : 0 ≤ p) (p1 : p < 7)
    (hrow : p = 6 ∨ x < 294) :
    |(next_iteration 7 (initial_workers (fun _ => 0)) p).grid x y
        - (initial_state (fun _ => 0)).grid x y| ≤ 3 / 8 ∧
    (x ≠ 293 →
      |(next_iteration 7 (initial_workers (fun _ => 0)) p).grid x y
        - (initial_state (fun _ => 0)).grid x y| ≤ 1 / 4) := by
  obtain ⟨e1, _, _, _⟩ := next_iteration_eq 7 (initial_workers (fun _ => 0)) p
  rw [e1]
  dsimp only
  by_cases hin : InArray x y
  · rw [if_pos hin, first_step_new_grid p x y p0 p1 hin]
    unfold InArray at hin
    simp only [SIZE] at hin
    by_cases hH : 1 ≤ x ∧ x < 51 ∧ 1 ≤ y ∧ y < 51
    · rw [if_pos hH, initial_grid_value, if_pos hH]
      norm_num
    · rw [if_neg hH]
      by_cases hE : x = 0 ∨ x = 299 ∨ y = 0 ∨ y = 299
      · rw [if_pos hE, initial_grid_value, if_neg hH,
          if_neg (show ¬ (1 ≤ x ∧ x < 299 ∧ 1 ≤ y ∧ y < 299) by omega)]
        norm_num
      · rw [if_neg hE, initial_grid_value, if_neg hH,
          if_pos (show 1 ≤ x ∧ x < 299 ∧ 1 ≤ y ∧ y < 299 by omega)]
        by_cases hx : x < 294
        · rw [if_pos hx]
          by_cases h293 : x = 293
          · have e : x + x / 42 = 299 := by omega
            rw [e, stencil_initial_last_row y (by omega) (by omega)]
            refine ⟨by norm_num [abs_le], fun h => absurd h293 h⟩
          · have hb := stencil_initial_bound (x + x / 42) y (by omega) (by omega) (by omega)
              (by omega) (by omega)
            exact ⟨le_trans hb (by norm_num), fun _ => hb⟩
        · have h6 : p = 6 := by omega
          rw [if_neg hx, if_pos h6]
          have hb := stencil_initial_bound x y (by omega) (by omega) (by omega)
            (by omega) (by omega)
          exact ⟨le_trans hb (by norm_num), fun _ => hb⟩
  · rw [if_neg hin, first_step_grid, sub_self, abs_zero]
    exact ⟨by norm_num, fun _ => by norm_num⟩

/-- The array of a process after the second update, merge, walls and heaters
of the run with seven processes and both heaters at `(1, 1)`. -/
theorem second_step_new_grid (r a b : Int) (hin : InArray a b) :
    (step_phase 7 (next_iteration 7 (initial_workers (fun _ => 0))) r).new_grid a b =
      if 1 ≤ a ∧ a < 51 ∧ 1 ≤ b ∧ b < 51 then 1
      else if a = 0 ∨ a = 299 ∨ b = 0 ∨ b = 299 then 0
      else (allgather_new_grid 7
        (compute_phase 7 (next_iteration 7 (initial_workers (fun _ => 0)))) r).new_grid a b := by
  obtain ⟨e1, _, _, _⟩ := step_phase_eq 7 (next_iteration 7 (initial_workers (fun _ => 0))) r
  obtain ⟨_, _, n3, n4⟩ := next_iteration_eq 7 (initial_workers (fun _ => 0)) r
  obtain ⟨_, _, hx, hy⟩ := initial_workers_eq r
  rw [e1]
  dsimp only
  rw [n3, n4, hx 0 le_rfl (by decide), hx 1 (by decide) (by decide), hy 0 le_rfl (by decide),
    hy 1 (by decide) (by decide)]
  unfold InArray at hin
  simp only [SIZE, HEATER_SIZE, HOT, COLD, InArray] at *
  split_ifs <;> first | rfl | (exfalso; omega)

/-- The grid a process compares against in the second iteration is its array
after the first. -/
theorem second_step_grid (r a b : Int) (r0 : 0 ≤ r) (r1 : r < 7) (hin : InArray a b) :
    (step_phase 7 (next_iteration 7 (initial_workers (fun _ => 0))) r).grid a b =
      (step_phase 7 (initial_workers (fun _ => 0)) r).new_grid a b := by
  obtain ⟨_, e2, _, _⟩ := step_phase_eq 7 (next_iteration 7 (initial_workers (fun _ => 0))) r
  obtain ⟨n1, _, _, _⟩ := next_iteration_eq 7 (initial_workers (fun _ => 0)) r
  have hg : (next_iteration 7 (initial_workers (fun _ => 0)) r).grid a b
      = (step_phase 7 (initial_workers (fun _ => 0)) r).new_grid a b := by
    rw [n1]
    dsimp only
    rw [if_pos hin]
  rw [e2]
  dsimp only
  rw [hg, first_step_new_grid r a b r0 r1 hin]
  unfold InArray at hin
  simp only [SIZE, COLD, InArray] at *
  split_ifs <;> first | rfl | (exfalso; omega)

/-- In the second iteration of the run with seven processes no cell of any
process moves by more than `11/32`. -/
theorem second_step_change (r a b : Int) (r0 : 0 ≤ r) (r1 : r < 7) (hin : InArray a b) :
    |(step_phase 7 (next_iteration 7 (initial_workers (fun _ => 0))) r).grid a b
      - (step_phase 7 (next_iteration 7 (initial_workers (fun _ => 0))) r).new_grid a b|
      ≤ 11 / 32 := by
  obtain ⟨_, n2, _, _⟩ := next_iteration_eq 7 (initial_workers (fun _ => 0)) r
  rw [second_step_grid r a b r0 (by omega) hin, second_step_new_grid r a b hin]
  have hin2 := hin
  unfold InArray at hin
  simp only [SIZE] at hin
  by_cases hH : 1 ≤ a ∧ a < 51 ∧ 1 ≤ b ∧ b < 51
  · rw [if_pos hH, first_step_new_grid r a b r0 (by omega) hin2, if_pos hH]
    norm_num
  · rw [if_neg hH]
    by_cases hE : a = 0 ∨ a = 299 ∨ b = 0 ∨ b = 299
    · rw [if_pos hE, first_step_new_grid r a b r0 (by omega) hin2, if_neg hH, if_pos hE]
      norm_num
    · rw [if_neg hE]
      by_cases ha : a < 294
      · rw [first_step_new_grid r a b r0 (by omega) hin2, if_neg hH, if_neg hE, if_pos ha,
          merged_seven_row _ r a b (by omega) ha (by omega) (by simp only [SIZE]; omega),
          stencil_eq_mean, stencil_eq_mean]
        have hp0 : 0 ≤ a / 42 := by omega
        have hp1 : a / 42 < 7 := by omega
        obtain ⟨u1, u2⟩ := first_change_bound (a / 42) (a + a / 42 + 1) b hp0 hp1 (by omega)
        obtain ⟨d1, d2⟩ := first_change_bound (a / 42) (a + a / 42 - 1) b hp0 hp1 (by omega)
        obtain ⟨l1, _⟩ := first_change_bound (a / 42) (a + a / 42) (b + 1) hp0 hp1 (by omega)
        obtain ⟨t1, _⟩ := first_change_bound (a / 42) (a + a / 42) (b - 1) hp0 hp1 (by omega)
        rw [abs_le] at u1 d1 l1 t1
        by_cases hv : a + a / 42 + 1 = 293
        · have d3 := d2 (by omega)
          rw [abs_le] at d3
          rw [abs_le]
          constructor <;> linarith [u1.1, u1.2, d3.1, d3.2, l1.1, l1.2, t1.1, t1.2]
        · have u3 := u2 hv
          rw [abs_le] at u3
          rw [abs_le]
          constructor <;> linarith [u3.1, u3.2, d1.1, d1.2, l1.1, l1.2, t1.1, t1.2]
      · rw [merged_seven_rest _ r a b (by omega) (by omega) (by simp only [SIZE]; omega)]
        unfold compute_phase
        rw [update_grid_eq]
        dsimp only
        have hr : remainder SIZE 7 = 6 := by decide
        have hst : start_row SIZE 7 r = r * 42 + min r 6 := by
          rw [start_row_closed, chunk_size_seven, hr]
        have he : end_row SIZE 7 r = (r + 1) * 42 + min (r + 1) 6 := by
          rw [end_row_eq_start_row_succ, start_row_closed, chunk_size_seven, hr]
        rw [hst, he]
        simp only [SIZE]
        by_cases h6 : r = 6
        · rw [if_pos (by omega), first_step_new_grid r a b r0 r1 hin2, if_neg hH, if_neg hE,
            if_neg ha, if_pos h6, h6, stencil_eq_mean, stencil_eq_mean]
          obtain ⟨_, u2⟩ := first_change_bound 6 (a + 1) b (by decide) (by decide) (Or.inl rfl)
          obtain ⟨d1, _⟩ := first_change_bound 6 (a - 1) b (by decide) (by decide) (Or.inl rfl)
          obtain ⟨_, l2⟩ := first_change_bound 6 a (b + 1) (by decide) (by decide) (Or.inl rfl)
          obtain ⟨_, t2⟩ := first_change_bound 6 a (b - 1) (by decide) (by decide) (Or.inl rfl)
          have u3 := u2 (by omega)
          have l3 := l2 (by omega)
          have t3 := t2 (by omega)
          rw [abs_le] at u3 d1 l3 t3
          rw [abs_le]
          constructor <;> linarith [u3.1, u3.2, d1.1, d1.2, l3.1, l3.2, t3.1, t3.2]
        · rw [if_neg (by omega), n2, sub_self, abs_zero]
          norm_num

/-- At threshold `7/20` no process of the run with seven processes finds
`isStable` set in the first iteration. -/
theorem first_step_unstable (p : Int) (p0 : 0 ≤ p) (p1 : p < 7) :
    stability_check (7 / 20) (step_phase 7 (initial_workers (fun _ => 0)) p) = 0 := by
  rw [stability_check_eq_zero_iff]
  by_cases h6 : p = 6
  · refine ⟨293, 5, by decide, by decide, by decide, by decide, ?_⟩
    rw [first_step_grid, first_step_new_grid p 293 5 p0 p1 (by decide), initial_grid_value,
      if_neg (by decide), if_pos (by decide), if_neg (by decide), if_neg (by decide),
      if_pos (by decide)]
    have e : (293 : Int) + 293 / 42 = 299 := by decide
    rw [e, stencil_initial_last_row 5 (by decide) (by decide)]
    norm_num [abs_of_pos]
  · refine ⟨295, 5, by decide, by decide, by decide, by decide, ?_⟩
    rw [first_step_grid, first_step_new_grid p 295 5 p0 p1 (by decide), initial_grid_value,
      if_neg (by decide), if_pos (by decide), if_neg (by decide), if_neg (by decide),
      if_neg (by decide), if_neg h6]
    norm_num [abs_of_pos]

/-- At threshold `7/20` every process finds `isStable` set in the second
iteration. -/
theorem second_step_stable (r : Int) (r0 : 0 ≤ r) (r1 : r < 7) :
    stability_check (7 / 20)
      (step_phase 7 (next_iteration 7 (initial_workers (fun _ => 0))) r) = 1 := by
  rw [stability_check_eq_one_iff]
  intro i j i0 i1 j0 j1
  exact le_trans (second_step_change r i j r0 r1 ⟨i0, i1, j0, j1⟩) (by norm_num)

/-- At threshold `2/5` the last process finds `isStable` set in the first
iteration. -/
theorem first_step_last_stable :
    stability_check (2 / 5) (step_phase 7 (initial_workers (fun _ => 0)) 6) = 1 := by
  rw [stability_check_eq_one_iff]
  intro i j i0 i1 j0 j1
  obtain ⟨n1, _, _, _⟩ := next_iteration_eq 7 (initial_workers (fun _ => 0)) 6
  obtain ⟨c, _⟩ := first_change_bound 6 i j (by decide) (by decide) (Or.inl rfl)
  rw [n1] at c
  dsimp only at c
  rw [if_pos ⟨i0, i1, j0, j1⟩, abs_sub_comm, ← first_step_grid 6 i j] at c
  exact le_trans c (by norm_num)

/-- At threshold `2/5` no process but the last finds `isStable` set in the
first iteration: row 295 still holds the stale zeros. -/
theorem first_step_others_unstable (p : Int) (p0 : 0 ≤ p) (p1 : p < 6) :
    stability_check (2 / 5) (step_phase 7 (initial_workers (fun _ => 0)) p) = 0 := by
  rw [stability_check_eq_zero_iff]
  refine ⟨295, 5, by decide, by decide, by decide, by decide, ?_⟩
  rw [first_step_grid, first_step_new_grid p 295 5 p0 (by omega) (by decide),
    initial_grid_value, if_neg (by decide), if_pos (by decide), if_neg (by decide),
    if_neg (by decide), if_neg (by decide), if_neg (by omega)]
  norm_num [abs_of_pos]

/-- A process that finds `isStable` set in the second iteration, when no
process found it set in the first, leaves the loop with `step = 2`. -/
theorem main_loop_second (size rank : Int) (t : ℚ) (fuel : Nat) (w : Int → State)
    (h1 : ∀ p : Int, 0 ≤ p → p < size → stability_check t (step_phase size w p) = 0)
    (r0 : 0 ≤ rank) (r1 : rank < size)
    (h2 : stability_check t (step_phase size (next_iteration size w) rank) = 1) :
    main_loop size rank t (fuel + 2) w 0 = some 2 := by
  show main_loop size rank t (fuel + 1 + 1) w 0 = some 2
  rw [main_loop_continues size rank t (fuel + 1) w 0 h1 (h1 rank r0 r1),
    main_loop_leaves size rank t fuel (next_iteration size w) (0 + 1) h2]
  rfl

/-! ## The claims of the specification -/

/-- C2: for every process count `size >= 1` and rank `0 <= rank < size`, with
`chunk_size = SIZE / size` and `remainder = SIZE mod size`: a rank below the
remainder starts at `rank * (chunk_size + 1)` and owns `chunk_size + 1` rows,
any other rank starts at `rank * chunk_size + remainder` and owns `chunk_size`
rows. -/
theorem row_range_formula (size rank : Int) (hs : 1 ≤ size) (_h0 : 0 ≤ rank)
    (_h1 : rank < size) :
    chunk_size SIZE size = SIZE / size ∧ remainder SIZE size = SIZE % size ∧
    (rank < SIZE % size →
      start_row SIZE size rank = rank * (SIZE / size + 1) ∧
      end_row SIZE size rank - start_row SIZE size rank = SIZE / size + 1) ∧
    (¬ rank < SIZE % size →
      start_row SIZE size rank = rank * (SIZE / size) + SIZE % size ∧
      end_row SIZE size rank - start_row SIZE size rank = SIZE / size) := by
  have hc := chunk_size_eq SIZE size (by simp [SIZE]) hs
  have hr := remainder_eq SIZE size (by simp [SIZE]) hs
  refine ⟨hc, hr, ?_, ?_⟩
  · intro h
    unfold end_row start_row
    rw [hc, hr, if_pos h, if_pos h]
    exact ⟨rfl, by ring⟩
  · intro h
    unfold end_row start_row
    rw [hc, hr, if_neg h, if_neg h]
    exact ⟨rfl, by ring⟩

/-- Witness of C2: seven processes, rank 3 (below the remainder 6). -/
theorem row_range_formula_witness :
    ((1 : Int) ≤ 7 ∧ (0 : Int) ≤ 3 ∧ (3 : Int) < 7) ∧
    chunk_size SIZE 7 = SIZE / 7 ∧ remainder SIZE 7 = SIZE % 7 ∧
    ((3 : Int) < SIZE % 7 →
      start_row SIZE 7 3 = 3 * (SIZE / 7 + 1) ∧
      end_row SIZE 7 3 - start_row SIZE 7 3 = SIZE / 7 + 1) ∧
    (¬ (3 : Int) < SIZE % 7 →
      start_row SIZE 7 3 = 3 * (SIZE / 7) + SIZE % 7 ∧
      end_row SIZE 7 3 - start_row SIZE 7 3 = SIZE / 7) :=
  ⟨by decide, row_range_formula 7 3 (by decide) (by decide) (by decide)⟩

/-- C3 as stated fails: with `SIZE = 300` and one process, row 0 lies in the
range of rank 0 although it is not an interior row. -/
theorem ranges_cover_wall_row :
    (∃ rank : Int, 0 ≤ rank ∧ rank < 1 ∧
      start_row SIZE 1 rank ≤ 0 ∧ 0 < end_row SIZE 1 rank) ∧
    ¬ (1 ≤ (0 : Int) ∧ (0 : Int) < SIZE - 1) :=
  ⟨⟨0, by decide, by decide, by decide, by decide⟩, by decide⟩

/-- C3, amended: for every grid size `n > 2` and every process count
`size >= 1`, the union over all ranks of the ranges `[start_row, end_row)` is
exactly the set of all rows `[0, n)`, the two wall rows included, and no row
belongs to the ranges of two different ranks. -/
theorem ranges_partition_all_rows (n size : Int) (hn : 2 < n) (hs : 1 ≤ size) :
    (∀ i : Int,
      (∃ rank : Int, 0 ≤ rank ∧ rank < size ∧
        start_row n size rank ≤ i ∧ i < end_row n size rank) ↔ (0 ≤ i ∧ i < n)) ∧
    (∀ r1 r2 i : Int, 0 ≤ r1 → r1 < size → 0 ≤ r2 → r2 < size →
      start_row n size r1 ≤ i → i < end_row n size r1 →
      start_row n size r2 ≤ i → i < end_row n size r2 → r1 = r2) := by
  have hn0 : 0 ≤ n := by omega
  constructor
  · intro i
    constructor
    · rintro ⟨rank, a, b, c, d⟩
      have h := start_row_no_overflow n size rank hn0 hs a b
      omega
    · rintro ⟨a, b⟩
      have e : ((size.toNat : Nat) : Int) = size := Int.toNat_of_nonneg (by omega)
      have h := row_owner_below n size hn0 hs size.toNat i a
        (by rw [e, start_row_size n size hn0 hs]; exact b)
      obtain ⟨rank, c, d, f, g⟩ := h
      exact ⟨rank, c, by omega, f, g⟩
  · intro r1 r2 i _ _ _ _ a1 b1 a2 b2
    rw [end_row_eq_start_row_succ] at b1 b2
    by_contra hne
    rcases lt_or_gt_of_ne hne with h | h
    · have := start_row_mono n size hn0 hs (r1 + 1) r2 (by omega)
      omega
    · have := start_row_mono n size hn0 hs (r2 + 1) r1 (by omega)
      omega

/-- Witness of the amended C3: the grid of the program and seven processes. -/
theorem ranges_partition_all_rows_witness :
    (2 < SIZE ∧ (1 : Int) ≤ 7) ∧
    (∀ i : Int,
      (∃ rank : Int, 0 ≤ rank ∧ rank < 7 ∧
        start_row SIZE 7 rank ≤ i ∧ i < end_row SIZE 7 rank) ↔ (0 ≤ i ∧ i < SIZE)) ∧
    (∀ r1 r2 i : Int, 0 ≤ r1 → r1 < 7 → 0 ≤ r2 → r2 < 7 →
      start_row SIZE 7 r1 ≤ i → i < end_row SIZE 7 r1 →
      start_row SIZE 7 r2 ≤ i → i < end_row SIZE 7 r2 → r1 = r2) :=
  ⟨by decide, ranges_partition_all_rows SIZE 7 (by decide) (by decide)⟩

/-- C4 fails with seven processes, wherever the heaters are: in the first
iteration rank 6 owns the interior row 295 and computes a value of at least
`1/2` for `new_grid[295][5]`, but after the merge process 0 holds `0` there.
With both heaters at `(1, 1)` rank 1 owns row 50 and computes `7/8` for
`new_grid[50][5]`, but after the merge process 0 holds `5/8` there, the value
rank 1 computed for row 51. -/
theorem allgather_misplaces_rows (rand : Nat → Int) :
    (start_row SIZE 7 6 ≤ 295 ∧ 295 < end_row SIZE 7 6 ∧
      1 / 2 ≤ (compute_phase 7 (initial_workers rand) 6).new_grid 295 5 ∧
      (allgather_new_grid 7 (compute_phase 7 (initial_workers rand)) 0).new_grid 295 5 = 0) ∧
    (start_row SIZE 7 1 ≤ 50 ∧ 50 < end_row SIZE 7 1 ∧
      (compute_phase 7 (initial_workers (fun _ => 0)) 1).new_grid 50 5 = 7 / 8 ∧
      (allgather_new_grid 7 (compute_phase 7 (initial_workers (fun _ => 0))) 0).new_grid 50 5
        = 5 / 8) := by
  refine ⟨⟨by decide, by decide, ?_, ?_⟩, ⟨by decide, by decide, ?_, ?_⟩⟩
  · rw [compute_phase_seven]
    simp only [start_row_seven_six.1, start_row_seven_six.2]
    rw [if_pos (by simp only [SIZE]; omega)]
    rw [stencil_eq_mean]
    have h1 := initial_grid_interior rand (295 + 1) 5 (by decide) (by decide) (by decide)
      (by decide)
    have h2 := initial_grid_interior rand (295 - 1) 5 (by decide) (by decide) (by decide)
      (by decide)
    have h3 := initial_grid_interior rand 295 (5 + 1) (by decide) (by decide) (by decide)
      (by decide)
    have h4 := initial_grid_interior rand 295 (5 - 1) (by decide) (by decide) (by decide)
      (by decide)
    linarith
  · rw [allgather_seven_stale, compute_phase_seven]
    simp only [start_row_seven_zero.1, start_row_seven_zero.2]
    rw [if_neg (by omega)]
  · rw [compute_phase_seven, initial_grid_eq]
    simp only [start_row_seven_one.1, start_row_seven_one.2]
    simp only [SIZE, stencil, K]
    norm_num
  · rw [allgather_seven_shift, compute_phase_seven, initial_grid_eq]
    simp only [start_row_seven_one.1, start_row_seven_one.2]
    simp only [SIZE, stencil, K]
    norm_num

/-- C5 fails with seven processes, wherever the heaters are: all processes
enter the first iteration with the same arrays, yet after the merge
`new_grid[295][5]` is `0` on process 0 and at least `1/2` on process 6. -/
theorem allgather_leaves_stale_rows (rand : Nat → Int) :
    (allgather_new_grid 7 (compute_phase 7 (initial_workers rand)) 0).new_grid 295 5 = 0 ∧
    1 / 2 ≤ (allgather_new_grid 7 (compute_phase 7 (initial_workers rand)) 6).new_grid 295 5 ∧
    (allgather_new_grid 7 (compute_phase 7 (initial_workers rand)) 0).new_grid 295 5 ≠
      (allgather_new_grid 7 (compute_phase 7 (initial_workers rand)) 6).new_grid 295 5 := by
  have e0 : (allgather_new_grid 7 (compute_phase 7 (initial_workers rand)) 0).new_grid 295 5
      = 0 := by
    rw [allgather_seven_stale, compute_phase_seven]
    simp only [start_row_seven_zero.1, start_row_seven_zero.2]
    rw [if_neg (by omega)]
  have e6 : 1 / 2 ≤
      (allgather_new_grid 7 (compute_phase 7 (initial_workers rand)) 6).new_grid 295 5 := by
    rw [allgather_seven_stale, compute_phase_seven]
    simp only [start_row_seven_six.1, start_row_seven_six.2]
    rw [if_pos (by simp only [SIZE]; omega)]
    rw [stencil_eq_mean]
    have h1 := initial_grid_interior rand (295 + 1) 5 (by decide) (by decide) (by decide)
      (by decide)
    have h2 := initial_grid_interior rand (295 - 1) 5 (by decide) (by decide) (by decide)
      (by decide)
    have h3 := initial_grid_interior rand 295 (5 + 1) (by decide) (by decide) (by decide)
      (by decide)
    have h4 := initial_grid_interior rand 295 (5 - 1) (by decide) (by decide) (by decide)
      (by decide)
    linarith
  refine ⟨e0, e6, ?_⟩
  rw [e0]
  intro h
  rw [← h] at e6
  norm_num at e6

/-- C6: for every pair of arrays and every threshold the stability scan
leaves `isStable = 1` exactly when `|grid[i][j] - new_grid[i][j]| <= threshold`
for every cell with `0 <= i, j < SIZE`, and `isStable = 0` exactly when some
such cell has `|grid[i][j] - new_grid[i][j]| > threshold`. -/
theorem stability_check_spec (threshold : ℚ) (s : State) :
    (stability_check threshold s = 1 ↔
      ∀ i j : Int, 0 ≤ i → i < SIZE → 0 ≤ j → j < SIZE →
        |s.grid i j - s.new_grid i j| ≤ threshold) ∧
    (stability_check threshold s = 0 ↔
      ∃ i j : Int, 0 ≤ i ∧ i < SIZE ∧ 0 ≤ j ∧ j < SIZE ∧
        |s.grid i j - s.new_grid i j| > threshold) :=
  ⟨stability_check_eq_one_iff threshold s, stability_check_eq_zero_iff threshold s⟩

/-- C7: whatever `grid` and `new_grid` hold, after `initialize_walls` every
cell of the array in row 0 or `SIZE-1` or in column 0 or `SIZE-1` equals
`COLD = 0` in both arrays, and every other cell of both arrays is unchanged. -/
theorem initialize_walls_spec (s : State) (i j : Int) :
    (initialize_walls s).grid i j =
      (if (0 ≤ i ∧ i < SIZE ∧ 0 ≤ j ∧ j < SIZE) ∧
        (i = 0 ∨ i = SIZE - 1 ∨ j = 0 ∨ j = SIZE - 1) then COLD else s.grid i j) ∧
    (initialize_walls s).new_grid i j =
      (if (0 ≤ i ∧ i < SIZE ∧ 0 ≤ j ∧ j < SIZE) ∧
        (i = 0 ∨ i = SIZE - 1 ∨ j = 0 ∨ j = SIZE - 1) then COLD else s.new_grid i j) ∧
    COLD = 0 := by
  rw [initialize_walls_eq]
  exact ⟨rfl, rfl, rfl⟩

/-- C8: for every `new_grid` and every heater location array, after
`update_heaters` every cell `new_grid[hx+x][hy+y]` with `(hx, hy)` a recorded
heater location and `0 <= x, y < HEATER_SIZE` equals `HOT = 1`, every cell of
`new_grid` outside all heater footprints is unchanged, and `grid` is
unchanged. -/
theorem update_heaters_spec (s : State) :
    (∀ h x y : Int, 0 ≤ h → h < HEATER_COUNT → 0 ≤ x → x < HEATER_SIZE →
      0 ≤ y → y < HEATER_SIZE →
      (update_heaters s).new_grid (s.heater_location_x h + x) (s.heater_location_y h + y)
        = HOT) ∧
    (∀ a b : Int,
      (¬ ∃ h x y : Int, 0 ≤ h ∧ h < HEATER_COUNT ∧ 0 ≤ x ∧ x < HEATER_SIZE ∧
        0 ≤ y ∧ y < HEATER_SIZE ∧
        a = s.heater_location_x h + x ∧ b = s.heater_location_y h + y) →
      (update_heaters s).new_grid a b = s.new_grid a b) ∧
    (update_heaters s).grid = s.grid ∧ HOT = 1 := by
  rw [update_heaters_eq]
  refine ⟨?_, ?_, rfl, rfl⟩
  · intro h x y h0 h1 x0 x1 y0 y1
    have hh : h = 0 ∨ h = 1 := by simp only [HEATER_COUNT] at h1; omega
    show (if _ then HOT else if _ then HOT else _) = HOT
    rcases hh with rfl | rfl
    · split_ifs with c1 c2
      · rfl
      · rfl
      · exact absurd ⟨by omega, by omega, by omega, by omega⟩ c2
    · rw [if_pos ⟨by omega, by omega, by omega, by omega⟩]
  · intro a b hno
    show (if _ then HOT else if _ then HOT else _) = _
    split_ifs with c1 c2
    · exact absurd ⟨1, a - s.heater_location_x 1, b - s.heater_location_y 1, by decide,
        by decide, by omega, by omega, by omega, by omega, by omega, by omega⟩ hno
    · exact absurd ⟨0, a - s.heater_location_x 0, b - s.heater_location_y 0, by decide,
        by decide, by omega, by omega, by omega, by omega, by omega, by omega⟩ hno
    · rfl

/-- C9 fails: with the threshold `-1` the loop of any process, started from
any state, has not been left after `MAX_ITERATIONS + 1` iterations, nor after
any other number of iterations. -/
theorem main_loop_exceeds_max_iterations (size rank : Int) (w : Int → State) :
    main_loop size rank (-1) (MAX_ITERATIONS + 1) w 0 = none ∧
    ∀ fuel : Nat, main_loop size rank (-1) fuel w 0 = none :=
  ⟨main_loop_negative size rank (-1) (by norm_num) _ w 0,
    fun fuel => main_loop_negative size rank (-1) (by norm_num) fuel w 0⟩

/-- C10 fails with seven processes and both heaters at `(1, 1)`: with the
threshold `7/20` every process leaves the loop with step count 2, and with
the larger threshold `2/5` only the last process leaves it, with step count
1, while every other process has not left it after any number of iterations.
The merge leaves rows 294 to 299 stale on every process but the last, so in
the first iteration the last process sees a largest change of `3/8` and the
others see `1/2`; the last process leaves the loop and the others block in
the next `MPI_Barrier`. -/
theorem larger_threshold_blocks_other_ranks :
    (∀ (r : Int) (fuel : Nat), 0 ≤ r → r < 7 →
      main_loop 7 r (7 / 20) (fuel + 2) (initial_workers (fun _ => 0)) 0 = some 2) ∧
    (∀ fuel : Nat,
      main_loop 7 6 (2 / 5) (fuel + 1) (initial_workers (fun _ => 0)) 0 = some 1) ∧
    (∀ (r : Int) (fuel : Nat), 0 ≤ r → r < 6 →
      main_loop 7 r (2 / 5) fuel (initial_workers (fun _ => 0)) 0 = none) ∧
    (7 / 20 : ℚ) < 2 / 5 :=
  ⟨fun r fuel r0 r1 =>
      main_loop_second 7 r (7 / 20) fuel (initial_workers (fun _ => 0)) first_step_unstable
        r0 r1 (second_step_stable r r0 r1),
    fun fuel => main_loop_leaves 7 6 (2 / 5) fuel (initial_workers (fun _ => 0)) 0
      first_step_last_stable,
    fun r fuel r0 r1 => main_loop_blocked 7 r (2 / 5) fuel (initial_workers (fun _ => 0)) 0
      (first_step_others_unstable r r0 r1) 6 (by decide) (by decide) first_step_last_stable,
    by norm_num⟩

/-- C14: for every process count `size >= 1` and any two ranks `a`, `b` in
`[0, size)`, the numbers of rows assigned to them differ by at most 1. -/
theorem row_counts_differ_by_at_most_one (size a b : Int) (_hs : 1 ≤ size)
    (_a0 : 0 ≤ a) (_a1 : a < size) (_b0 : 0 ≤ b) (_b1 : b < size) :
    |(end_row SIZE size a - start_row SIZE size a) -
      (end_row SIZE size b - start_row SIZE size b)| ≤ 1 := by
  rw [row_count, row_count, abs_le]
  split_ifs <;> constructor <;> omega

/-- Witness of C14: seven processes, rank 5 (43 rows) and rank 6 (42 rows). -/
theorem row_counts_differ_by_at_most_one_witness :
    ((1 : Int) ≤ 7 ∧ (0 : Int) ≤ 5 ∧ (5 : Int) < 7 ∧ (0 : Int) ≤ 6 ∧ (6 : Int) < 7) ∧
    end_row SIZE 7 5 - start_row SIZE 7 5 = 43 ∧
    end_row SIZE 7 6 - start_row SIZE 7 6 = 42 ∧
    |(end_row SIZE 7 5 - start_row SIZE 7 5) - (end_row SIZE 7 6 - start_row SIZE 7 6)| ≤ 1 :=
  ⟨by decide, by decide, by decide,
    row_counts_differ_by_at_most_one 7 5 6 (by decide) (by decide) (by decide) (by decide)
      (by decide)⟩

/-- C15: for every non-negative value `r` of `rand()` the heater coordinate
`(r mod (SIZE - (HEATER_SIZE + 1))) + 1` lies in `[1, SIZE - HEATER_SIZE - 1]`,
and every footprint index `coordinate + x` with `0 <= x < HEATER_SIZE` lies in
`[1, SIZE - 2]`; the coordinates `drop_heaters` records are such values. -/
theorem heater_footprint_inside (r x : Int) (hr : 0 ≤ r) (x0 : 0 ≤ x)
    (x1 : x < HEATER_SIZE) :
    heater_coordinate r = r % (SIZE - (HEATER_SIZE + 1)) + 1 ∧
    (1 ≤ heater_coordinate r ∧ heater_coordinate r ≤ SIZE - HEATER_SIZE - 1) ∧
    (1 ≤ heater_coordinate r + x ∧ heater_coordinate r + x ≤ SIZE - 2) ∧
    (∀ (rand : Nat → Int) (s : State),
      (drop_heaters rand s).heater_location_x 0 = heater_coordinate (rand 0) ∧
      (drop_heaters rand s).heater_location_y 0 = heater_coordinate (rand 1) ∧
      (drop_heaters rand s).heater_location_x 1 = heater_coordinate (rand 2) ∧
      (drop_heaters rand s).heater_location_y 1 = heater_coordinate (rand 3)) := by
  have hb := heater_coordinate_bounds r hr
  refine ⟨?_, hb, ?_, ?_⟩
  · unfold heater_coordinate
    rw [Int.tmod_eq_emod hr (by simp [SIZE, HEATER_SIZE])]
  · simp only [SIZE, HEATER_SIZE] at *
    omega
  · intro rand s
    rw [drop_heaters_eq]
    simp

/-- Witness of C15: `rand()` returns 1000, offset 49. -/
theorem heater_footprint_inside_witness :
    ((0 : Int) ≤ 1000 ∧ (0 : Int) ≤ 49 ∧ (49 : Int) < HEATER_SIZE) ∧
    heater_coordinate 1000 = 5 ∧
    (1 ≤ heater_coordinate 1000 + 49 ∧ heater_coordinate 1000 + 49 ≤ SIZE - 2) :=
  ⟨by decide, by decide,
    (heater_footprint_inside 1000 49 (by decide) (by decide) (by decide)).2.2.1⟩

/-- C16: for every process count `size >= 1` the ranges tile all rows in rank
order: rank 0 starts at row 0, every rank `k < size - 1` ends where rank
`k + 1` starts, the last rank ends at `SIZE`, and every row in `[0, SIZE)`
belongs to the range of exactly one rank. -/
theorem ranges_tile_in_rank_order (size : Int) (hs : 1 ≤ size) :
    start_row SIZE size 0 = 0 ∧
    (∀ k : Int, 0 ≤ k → k < size - 1 →
      end_row SIZE size k = start_row SIZE size (k + 1)) ∧
    end_row SIZE size (size - 1) = SIZE ∧
    (∀ i : Int, 0 ≤ i → i < SIZE →
      ∃! rank : Int, (0 ≤ rank ∧ rank < size) ∧
        start_row SIZE size rank ≤ i ∧ i < end_row SIZE size rank) := by
  have hn : (0 : Int) ≤ SIZE := by simp [SIZE]
  refine ⟨start_row_zero SIZE size hn hs, fun k _ _ => end_row_eq_start_row_succ SIZE size k,
    ?_, ?_⟩
  · rw [end_row_eq_start_row_succ, sub_add_cancel]
    exact start_row_size SIZE size hn hs
  · intro i i0 i1
    obtain ⟨rank, a, b, c, d⟩ := row_owner_exists SIZE size i hn hs i0 i1
    refine ⟨rank, ⟨⟨a, b⟩, c, d⟩, ?_⟩
    rintro r2 ⟨_, c2, d2⟩
    exact row_owner_unique SIZE size i r2 rank hn hs c2 d2 c d

/-- Witness of C16: seven processes. -/
theorem ranges_tile_in_rank_order_witness :
    (1 : Int) ≤ 7 ∧ start_row SIZE 7 0 = 0 ∧ end_row SIZE 7 6 = SIZE ∧
    (∀ k : Int, 0 ≤ k → k < 7 - 1 → end_row SIZE 7 k = start_row SIZE 7 (k + 1)) :=
  ⟨by decide, (ranges_tile_in_rank_order 7 (by decide)).1,
    (ranges_tile_in_rank_order 7 (by decide)).2.2.1,
    (ranges_tile_in_rank_order 7 (by decide)).2.1⟩

/-- C12 as stated fails: with `1` at the cell `(3, 4)` and `1/2` everywhere
else, the update over the band of rows 2..4 writes `1/2` to `new_grid[3][4]`,
not `0`. -/
theorem spike_centre_is_not_zero :
    (update_grid 3 5
      { zero_state with grid := fun a b => if a = 3 ∧ b = 4 then 1 else 1 / 2 }).new_grid 3 4
      = 1 / 2 ∧
    (update_grid 3 5
      { zero_state with grid := fun a b => if a = 3 ∧ b = 4 then 1 else 1 / 2 }).new_grid 3 4
      ≠ 0 := by
  have e : (update_grid 3 5
      { zero_state with grid := fun a b => if a = 3 ∧ b = 4 then 1 else 1 / 2 }).new_grid 3 4
      = 1 / 2 := by
    rw [update_grid_new_grid 3 5 _ 3 4 (by decide) (by decide) (by decide) (by decide)]
    exact stencil_spike_centre _ 3 4 (fun _ _ => rfl)
  rw [e]
  exact ⟨rfl, by norm_num⟩

/-- C12, amended: for a grid holding `1/2` in every cell except one interior
cell `c = (ci, cj)`, not adjacent to an edge, that holds `1`, one stencil
update over a row band containing `c` yields `new_grid[c] = 1/2`, that is
`1 + 1/4 * (4 * 1/2 - 4 * 1)`. -/
theorem spike_centre_value (sr er ci cj : Int) (s : State)
    (_hi : 2 ≤ ci ∧ ci ≤ SIZE - 3) (hj : 2 ≤ cj ∧ cj ≤ SIZE - 3)
    (hband : sr - 1 ≤ ci ∧ ci < er)
    (hg : ∀ a b, s.grid a b = if a = ci ∧ b = cj then 1 else 1 / 2) :
    (update_grid sr er s).new_grid ci cj = 1 / 2 ∧
    (1 / 2 : ℚ) = 1 + K * (1 / 2 + 1 / 2 + 1 / 2 + 1 / 2 - 4 * 1) := by
  constructor
  · rw [update_grid_new_grid sr er s ci cj hband.1 hband.2 (by omega) (by omega)]
    exact stencil_spike_centre s.grid ci cj hg
  · unfold K
    norm_num

/-- Witness of the amended C12: the cell `(3, 4)` and the band of rows 2..4. -/
theorem spike_centre_value_witness :
    (update_grid 3 5
      { zero_state with grid := fun a b => if a = 3 ∧ b = 4 then 1 else 1 / 2 }).new_grid 3 4
      = 1 / 2 :=
  (spike_centre_value 3 5 3 4
    { zero_state with grid := fun a b => if a = 3 ∧ b = 4 then 1 else 1 / 2 }
    (by decide) (by decide) (by decide) (fun _ _ => rfl)).1

/-- C13: for a grid holding `1/2` in every cell except one interior cell
`c = (ci, cj)`, not adjacent to an edge, that holds `1`, one stencil update
over a row band containing `c` and its four neighbours sets each of the four
neighbours of `c` to its prior value plus `1/8`, that is to `5/8`. -/
theorem spike_neighbour_values (sr er ci cj : Int) (s : State)
    (_hi : 2 ≤ ci ∧ ci ≤ SIZE - 3) (hj : 2 ≤ cj ∧ cj ≤ SIZE - 3)
    (hband : sr - 1 ≤ ci - 1 ∧ ci + 1 < er)
    (hg : ∀ a b, s.grid a b = if a = ci ∧ b = cj then 1 else 1 / 2) :
    ∀ a b : Int,
      ((a = ci + 1 ∧ b = cj) ∨ (a = ci - 1 ∧ b = cj) ∨ (a = ci ∧ b = cj + 1) ∨
        (a = ci ∧ b = cj - 1)) →
      (update_grid sr er s).new_grid a b = s.grid a b + 1 / 8 ∧
      (update_grid sr er s).new_grid a b = 5 / 8 := by
  intro a b hn
  have hv := stencil_spike_neighbour s.grid ci cj a b hg hn
  have e : (update_grid sr er s).new_grid a b = stencil s.grid a b := by
    apply update_grid_new_grid <;> omega
  rw [e, hv.1, hv.2]
  exact ⟨by norm_num, rfl⟩

/-- Witness of C13: the cell `(3, 4)` and the band of rows 2..4. -/
theorem spike_neighbour_values_witness :
    (update_grid 3 5
      { zero_state with grid := fun a b => if a = 3 ∧ b = 4 then 1 else 1 / 2 }).new_grid 4 4
      = 5 / 8 ∧
    (update_grid 3 5
      { zero_state with grid := fun a b => if a = 3 ∧ b = 4 then 1 else 1 / 2 }).new_grid 3 5
      = 5 / 8 :=
  ⟨(spike_neighbour_values 3 5 3 4
      { zero_state with grid := fun a b => if a = 3 ∧ b = 4 then 1 else 1 / 2 }
      (by decide) (by decide) (by decide) (fun _ _ => rfl) 4 4 (by decide)).2,
    (spike_neighbour_values 3 5 3 4
      { zero_state with grid := fun a b => if a = 3 ∧ b = 4 then 1 else 1 / 2 }
      (by decide) (by decide) (by decide) (fun _ _ => rfl) 3 5 (by decide)).2⟩

/-- C18 fails for every process count `size >= 1`: the band of rank 0 starts
at row `-1`, so its update loop writes `new_grid[-1][1]` from `grid[-2][1]`,
`grid[-1][..]` and `grid[0][1]`; the band of the last rank contains row
`SIZE - 1`, so its update loop reads `grid[SIZE][1]`. None of the rows `-2`,
`-1`, `SIZE` is inside the arrays. -/
theorem update_loop_leaves_array (size : Int) (hs : 1 ≤ size) (s : State) :
    (start_row SIZE size 0 - 1 = -1 ∧ -1 < end_row SIZE size 0 ∧
      (update_grid (start_row SIZE size 0) (end_row SIZE size 0) s).new_grid (-1) 1 =
        s.grid (-1) 1 + K * (s.grid 0 1 + s.grid (-2) 1 + s.grid (-1) 2 + s.grid (-1) 0
          - 4 * s.grid (-1) 1)) ∧
    (start_row SIZE size (size - 1) - 1 ≤ SIZE - 1 ∧ SIZE - 1 < end_row SIZE size (size - 1) ∧
      (update_grid (start_row SIZE size (size - 1)) (end_row SIZE size (size - 1)) s).new_grid
          (SIZE - 1) 1 =
        s.grid (SIZE - 1) 1 + K * (s.grid SIZE 1 + s.grid (SIZE - 2) 1 + s.grid (SIZE - 1) 2
          + s.grid (SIZE - 1) 0 - 4 * s.grid (SIZE - 1) 1)) ∧
    ¬ InArray (-1) 1 ∧ ¬ InArray (-2) 1 ∧ ¬ InArray SIZE 1 := by
  have hn : (0 : Int) ≤ SIZE := by simp [SIZE]
  have z := start_row_zero SIZE size hn hs
  have b0 := start_row_no_overflow SIZE size 0 hn hs le_rfl (by omega)
  have bl := start_row_no_overflow SIZE size (size - 1) hn hs (by omega) (by omega)
  have el : end_row SIZE size (size - 1) = SIZE := by
    rw [end_row_eq_start_row_succ, sub_add_cancel]
    exact start_row_size SIZE size hn hs
  refine ⟨⟨by omega, by omega, ?_⟩, ⟨by omega, by omega, ?_⟩, by decide, by decide, by decide⟩
  · rw [update_grid_new_grid _ _ s (-1) 1 (by omega) (by omega) (by decide) (by decide)]
    unfold stencil
    norm_num
  · rw [update_grid_new_grid _ _ s (SIZE - 1) 1 (by omega) (by omega) (by decide)
      (by decide)]
    unfold stencil
    simp only [SIZE]
    norm_num

/-- Witness of C18: one process; rank 0 is also the last rank. -/
theorem update_loop_leaves_array_witness :
    (1 : Int) ≤ 1 ∧ start_row SIZE 1 0 - 1 = -1 ∧ SIZE - 1 < end_row SIZE 1 (1 - 1) ∧
    ¬ InArray (-1) 1 ∧ ¬ InArray SIZE 1 :=
  ⟨by decide, (update_loop_leaves_array 1 (by decide) zero_state).1.1,
    (update_loop_leaves_array 1 (by decide) zero_state).2.1.2.1,
    (update_loop_leaves_array 1 (by decide) zero_state).2.2.1,
    (update_loop_leaves_array 1 (by decide) zero_state).2.2.2.2⟩

/-- C20 fails at the first row of the band of rank 0: the stencil value is the
mean of the four neighbours for every grid, and rows 1 to `SIZE - 2` of a grid
whose array cells lie in `[0, 1]` receive values in `[0, 1]`; but the update
loop of a single process also writes row 0, reading row `-1` outside the
array, and with every cell of the array at 0 and the storage before the array
holding 8 it writes `new_grid[0][1] = 2`. -/
theorem stencil_overshoots_at_first_row :
    (∀ (g : Grid) (i j : Int),
      stencil g i j = (g (i + 1) j + g (i - 1) j + g i (j + 1) + g i (j - 1)) / 4) ∧
    (∀ (sr er : Int) (s : State),
      (∀ a b, InArray a b → 0 ≤ s.grid a b ∧ s.grid a b ≤ 1) →
      ∀ i j : Int, sr - 1 ≤ i → i < er → 1 ≤ i → i ≤ SIZE - 2 → 1 ≤ j → j ≤ SIZE - 2 →
        0 ≤ (update_grid sr er s).new_grid i j ∧ (update_grid sr er s).new_grid i j ≤ 1) ∧
    (∀ a b : Int, InArray a b →
      0 ≤ cold_array_state.grid a b ∧ cold_array_state.grid a b ≤ 1) ∧
    (start_row SIZE 1 0 - 1 ≤ 0 ∧ 0 < end_row SIZE 1 0) ∧
    (update_grid (start_row SIZE 1 0) (end_row SIZE 1 0) cold_array_state).new_grid 0 1 = 2 := by
  refine ⟨stencil_eq_mean, update_grid_unit_inside, ?_, by decide, ?_⟩
  · intro a b hin
    unfold InArray at hin
    have e : cold_array_state.grid a b = 0 := by
      show (if a = -1 then (8 : ℚ) else 0) = 0
      rw [if_neg (by omega)]
    rw [e]
    norm_num
  · rw [update_grid_new_grid _ _ _ 0 1 (by decide) (by decide) (by decide) (by decide),
      stencil_eq_mean]
    show ((if (0 : Int) + 1 = -1 then (8 : ℚ) else 0) + (if (0 : Int) - 1 = -1 then (8 : ℚ) else 0)
      + (if (0 : Int) = -1 then (8 : ℚ) else 0) + (if (0 : Int) = -1 then (8 : ℚ) else 0)) / 4 = 2
    norm_num

end HeatParallel
